import Mathlib

/-!
Shallow embedding of the lighthouse multi-network resolution engine
(packages/engine: rpc-pool.ts, enrichment.ts, enrichers/erc-detector.ts,
resolve.ts, and packages/extension data/defillama-client.ts).

Stateful TypeScript classes become explicit state passing; JavaScript
numbers used as timestamps/counters become Nat, latency estimates become
Rat; fallible async code returns Except; remote endpoints are oracles
passed as explicit arguments.
-/

namespace Lighthouse

abbrev Address := String
abbrev ChainId := Nat
abbrev Url := String

/-- ChainConfig (chains.ts): per-network descriptor. -/
structure ChainConfig where
  chainId : ChainId
  name : String
  rpcs : List Url
  defillamaChainKey : Option String := none
deriving DecidableEq, Repr

/-! ## RpcPool (rpc-pool.ts) -/

/-- RpcPoolSettings (rpc-pool.ts). -/
structure RpcPoolSettings where
  roundRobin : Bool
  cooldownBaseMs : Nat
  maxRetriesBeforeDisable : Nat
deriving DecidableEq, Repr

/-- RpcHealth (rpc-pool.ts): mutable health record per (chain, url). -/
structure RpcHealth where
  url : Url
  failures : Nat
  lastFailureAt : Option Nat := none
  cooldownUntil : Option Nat := none
  ewmaLatencyMs : Option ℚ := none
  disabled : Bool := false
deriving DecidableEq, Repr

/-- The RpcPool class state: settings plus the two private Maps. -/
structure RpcPool where
  settings : RpcPoolSettings
  pools : List (ChainId × List RpcHealth) := []
  roundRobinIndex : List (ChainId × Nat) := []
deriving DecidableEq, Repr

/-- Functional counterpart of Map.set on an association list with
unique keys: replace the value at the first matching key, or append. -/
def assocSet {β : Type} : List (Nat × β) → Nat → β → List (Nat × β)
  | [], k, v => [(k, v)]
  | (k0, v0) :: rest, k, v =>
    if k0 = k then (k, v) :: rest else (k0, v0) :: assocSet rest k v

/-- Update the value at the first matching key, leaving the list
unchanged when the key is absent (mutation through Map.get). -/
def assocUpdate {β : Type} : List (Nat × β) → Nat → (β → β) → List (Nat × β)
  | [], _, _ => []
  | (k0, v) :: rest, k, f =>
    if k0 = k then (k0, f v) :: rest else (k0, v) :: assocUpdate rest k f

/-- Update the first list element satisfying the predicate (mutation of
the object returned by Array.prototype.find). -/
def updateFirstBy {α : Type} : List α → (α → Bool) → (α → α) → List α
  | [], _, _ => []
  | a :: rest, pred, f =>
    if pred a then f a :: rest else a :: updateFirstBy rest pred f

/-- RpcPool.ensurePool: return the existing pool for the chain, or build
one health record per configured endpoint URL and register it. -/
def RpcPool.ensurePool (p : RpcPool) (chain : ChainConfig) :
    List RpcHealth × RpcPool :=
  match p.pools.lookup chain.chainId with
  | some existing => (existing, p)
  | none =>
    let pool := chain.rpcs.map (fun url => { url := url, failures := 0 })
    (pool, { p with pools := assocSet p.pools chain.chainId pool })

/-- The candidate list of the pick body: endpoints that are neither
disabled nor cooling down, falling back to all non-disabled endpoints
when that filter comes up empty (the available/candidates locals of the
source method, factored out so the theorems can name them). -/
def pickCandidates (pool : List RpcHealth) (now : Nat) : List RpcHealth :=
  let available := pool.filter (fun rpc =>
    !rpc.disabled &&
      (match rpc.cooldownUntil with
       | none => true
       | some c => decide (c ≤ now)))
  if available.length > 0 then available
  else pool.filter (fun rpc => !rpc.disabled)

/-- RpcPool.pick: select an endpoint for the chain.  Date.now() is the
explicit argument now; the returned pool carries the lazily built health
records and the advanced round-robin index. -/
def RpcPool.pick (p : RpcPool) (chain : ChainConfig) (now : Nat) :
    Option RpcHealth × RpcPool :=
  let (pool, p1) := p.ensurePool chain
  if pool.isEmpty then (none, p1)
  else
    let candidates := pickCandidates pool now
    if candidates.isEmpty then (none, p1)
    else if !p1.settings.roundRobin then (candidates.head?, p1)
    else
      let index := (p1.roundRobinIndex.lookup chain.chainId).getD 0
      let selected := candidates.get? (index % candidates.length)
      (selected,
        { p1 with
          roundRobinIndex := assocSet p1.roundRobinIndex chain.chainId (index + 1) })

/-- RpcPool.findRpc: locate the health record for a (chain, url) pair. -/
def RpcPool.findRpc (p : RpcPool) (chainId : ChainId) (url : Url) :
    Option RpcHealth :=
  (p.pools.lookup chainId).bind (fun pool => pool.find? (fun rpc => rpc.url = url))

/-- In-place mutation of the record located by findRpc: update the first
record with the given url inside the pool of the given chain. -/
def RpcPool.updateRpc (p : RpcPool) (chainId : ChainId) (url : Url)
    (f : RpcHealth → RpcHealth) : RpcPool :=
  { p with
    pools := assocUpdate p.pools chainId
      (fun pool => updateFirstBy pool (fun rpc => rpc.url = url) f) }

/-- RpcPool.reportSuccess: EWMA latency update with alpha = 0.2.  The
JavaScript conditional is truthiness on ewmaLatencyMs, so a stored
estimate of 0 behaves like an absent one. -/
def RpcPool.reportSuccess (p : RpcPool) (chainId : ChainId) (url : Url)
    (latencyMs : ℚ) : RpcPool :=
  p.updateRpc chainId url (fun rpc =>
    let alpha : ℚ := 1 / 5
    let prior := rpc.ewmaLatencyMs.getD 0
    { rpc with
      ewmaLatencyMs :=
        some (if prior ≠ 0 then prior * (1 - alpha) + latencyMs * alpha
              else latencyMs) })

/-- RpcPool.cooldownMs: base * 2 ^ min(failures, 6). -/
def RpcPool.cooldownMs (p : RpcPool) (failures : Nat) : Nat :=
  p.settings.cooldownBaseMs * 2 ^ (min failures 6)

/-- RpcPool.reportFailure: bump the cumulative failure counter, stamp the
failure, set the exponential cooldown, disable at the threshold.  Unknown
(chain, url) pairs leave the state untouched. -/
def RpcPool.reportFailure (p : RpcPool) (chainId : ChainId) (url : Url)
    (now : Nat) : RpcPool :=
  p.updateRpc chainId url (fun rpc =>
    let failures := rpc.failures + 1
    { rpc with
      failures := failures
      lastFailureAt := some now
      cooldownUntil := some (now + p.cooldownMs failures)
      disabled := rpc.disabled || decide (failures ≥ p.settings.maxRetriesBeforeDisable) })

/-- The public operations of the RpcPool class, for stating facts about
arbitrary later usage of the pool. -/
inductive PoolOp
  | pickOp (chain : ChainConfig) (now : Nat)
  | successOp (chainId : ChainId) (url : Url) (latencyMs : ℚ)
  | failureOp (chainId : ChainId) (url : Url) (now : Nat)

/-- Apply one public pool operation to the pool state. -/
def PoolOp.apply (p : RpcPool) : PoolOp → RpcPool
  | .pickOp chain now => (p.pick chain now).2
  | .successOp chainId url latencyMs => p.reportSuccess chainId url latencyMs
  | .failureOp chainId url now => p.reportFailure chainId url now

/-- Apply a sequence of public pool operations. -/
def RpcPool.applyOps (p : RpcPool) : List PoolOp → RpcPool
  | [] => p
  | op :: rest => (PoolOp.apply p op).applyOps rest

/-! ## Shared data model (packages/shared/src/index.ts) -/

/-- Tag of the ContractClassification tagged union. -/
inductive ClassificationType
  | ERC20
  | ERC721
  | ERC1155
  | ERC4626
  | Proxy
  | Multisig
  | Pool
  | Unknown
deriving DecidableEq, Repr

/-- ContractClassification: tag plus confidence (and the optional
proxyType carried by the Proxy variant). -/
structure ContractClassification where
  type : ClassificationType
  confidence : ℚ
  proxyType : Option String := none
deriving DecidableEq, Repr

/-- The four-way token standard union used by TokenInfo.standard. -/
inductive TokenStandard
  | erc20
  | erc721
  | erc1155
  | erc4626
deriving DecidableEq, Repr

def TokenStandard.toClassificationType : TokenStandard → ClassificationType
  | .erc20 => .ERC20
  | .erc721 => .ERC721
  | .erc1155 => .ERC1155
  | .erc4626 => .ERC4626

/-- TokenInfo: numeric on-chain quantities become Nat, the stringified
bigints stay strings as in the source. -/
structure TokenInfo where
  standard : TokenStandard
  name : Option String := none
  symbol : Option String := none
  decimals : Option Nat := none
  totalSupply : Option String := none
  asset : Option String := none
  totalAssets : Option String := none
deriving DecidableEq, Repr

/-- The contract sub-record of ChainAddressInfo (fields not touched by
the embedded enrichers are elided only when no claim mentions them). -/
structure ContractRecord where
  bytecodeHash : Option String := none
  classification : Option ContractClassification := none
deriving DecidableEq, Repr

inductive AccountKind
  | EOA
  | Contract
  | Unknown
deriving DecidableEq, Repr

/-- ChainAddressInfo: the per-network resolution output. -/
structure ChainAddressInfo where
  chainId : ChainId
  chainName : String
  kind : AccountKind
  exists_ : Bool
  isContract : Bool
  nativeBalanceWei : Option String := none
  nonce : Option Nat := none
  contract : Option ContractRecord := none
  token : Option TokenInfo := none
deriving DecidableEq, Repr

/-- One element of scan.chainsFailed. -/
structure ChainFailure where
  chainId : ChainId
  reason : String
deriving DecidableEq, Repr

/-- The scan summary of an AddressResolution. -/
structure ScanSummary where
  mode : String
  chainsAttempted : List ChainId
  chainsSucceeded : List ChainId
  chainsFailed : List ChainFailure
deriving DecidableEq, Repr

/-- AddressResolution: the cacheable artifact.  perChain is the Record
keyed by chain id. -/
structure AddressResolution where
  address : Address
  scannedAt : Nat
  scan : ScanSummary
  perChain : List (ChainId × ChainAddressInfo)
deriving DecidableEq, Repr

/-! ## EnrichmentPipeline (enrichment.ts) -/

/-- EnrichmentContext: the mutable working set of one pipeline run.  The
rpc client, cache handle and logger are modelled outside the context (as
oracles and the returned warning log); the abort signal is a separate
immutable argument of run, since no enricher reassigns it. -/
structure EnrichmentContext where
  address : Address
  chainId : ChainId
  chain : ChainConfig
  info : ChainAddressInfo
  code : Option String := none
deriving DecidableEq, Repr

/-- Enricher interface: enrich returns the mutated context together with
an optional thrown-error message (mutations made before a throw are
kept, as they are in the in-place TypeScript original). -/
structure Enricher where
  id : String
  priority : Int
  supports : EnrichmentContext → Bool
  enrich : EnrichmentContext → EnrichmentContext × Option String

/-- The warning line emitted by EnrichmentPipeline.run on a caught
enricher failure. -/
def enricherWarning (e : Enricher) (msg : String) : String :=
  "Enricher " ++ e.id ++ " failed: " ++ msg

/-- Result of one pipeline run: final context, warn log, and the ids of
the enrichers actually invoked (instrumentation for the theorems). -/
structure RunResult where
  ctx : EnrichmentContext
  warnings : List String
  executed : List String

/-- The loop body of EnrichmentPipeline.run over the already-sorted
enricher list: check the signal before each enricher, skip unsupported
ones, catch and log any failure, keep going. -/
def runEnrichers (signal : Bool) :
    List Enricher → EnrichmentContext → RunResult
  | [], ctx => ⟨ctx, [], []⟩
  | e :: rest, ctx =>
    if signal then ⟨ctx, [], []⟩
    else if !e.supports ctx then runEnrichers signal rest ctx
    else
      let step := e.enrich ctx
      let tail := runEnrichers signal rest step.1
      { ctx := tail.ctx
        warnings :=
          (match step.2 with
           | some msg => [enricherWarning e msg]
           | none => []) ++ tail.warnings
        executed := e.id :: tail.executed }

/-- EnrichmentPipeline: holds the enrichers sorted once at construction. -/
structure EnrichmentPipeline where
  enrichers : List Enricher

/-- The constructor sorts by ascending numeric priority (stable sort, as
Array.prototype.sort is). -/
def EnrichmentPipeline.ofList (list : List Enricher) : EnrichmentPipeline :=
  ⟨list.mergeSort (fun a b => a.priority ≤ b.priority)⟩

/-- EnrichmentPipeline.run. -/
def EnrichmentPipeline.run (p : EnrichmentPipeline) (signal : Bool)
    (ctx : EnrichmentContext) : RunResult :=
  runEnrichers signal p.enrichers ctx

/-! ## ErcDetectorEnricher (enrichers/erc-detector.ts)

Each on-chain probe goes through safeCall (an eth call that may throw)
followed by a decode that may itself throw.  A probe outcome is either a
raised error (rpc revert or malformed return data) or a decoded value;
the oracle below records one outcome per probe the enricher issues. -/

/-- Outcome of one probe: err covers both a safeCall failure and a
decodeFunctionResult throw; val is the successfully decoded value. -/
inductive ProbeResult (α : Type)
  | err
  | val (v : α)
deriving DecidableEq, Repr

/-- The remote answers for a single run of ErcDetectorEnricher.enrich:
one entry per call the source issues.  String probes carry the decoded
string before normalization (the bytes32 variants carry the hexToString
output before null-stripping). -/
structure ErcProbes where
  supports721 : ProbeResult Bool
  supports1155 : ProbeResult Bool
  nameStr : ProbeResult String
  symbolStr : ProbeResult String
  nameBytes32 : ProbeResult String
  symbolBytes32 : ProbeResult String
  decimals : ProbeResult Nat
  totalSupply : ProbeResult Nat
  asset : ProbeResult String
  totalAssets : ProbeResult Nat
deriving DecidableEq, Repr

/-- supportsInterface: any failure decodes to false. -/
def supportsInterfaceResult : ProbeResult Bool → Bool
  | .err => false
  | .val b => b

/-- callString: failure means the field is unknown. -/
def callStringResult : ProbeResult String → Option String
  | .err => none
  | .val s => some s

/-- Strip the NUL padding characters, as the source's replace of the
u0000 escape does. -/
def stripNulls (s : String) : String :=
  String.mk (s.toList.filter (fun c => c ≠ Char.ofNat 0))

/-- callBytes32String: strip NULs and trim; an empty result is treated
as absent (the trailing-or-undefined idiom). -/
def callBytes32StringResult : ProbeResult String → Option String
  | .err => none
  | .val s =>
    let text := stripNulls s
    if text.trim.isEmpty then none else some text.trim

/-- normalizeTokenString: strip NULs, trim, drop empties. -/
def normalizeTokenString : Option String → Option String
  | none => none
  | some value =>
    let trimmed := (stripNulls value).trim
    if trimmed.length > 0 then some trimmed else none

/-- The character class of the symbol-quality regex. -/
def symbolCharOk (c : Char) : Bool :=
  c.isAlphanum || c = '.' || c = '$' || c = '-'

/-- Whether the string matches the anchored symbol character-class
regex: nonempty and every character in the class. -/
def matchesSymbolRegex (s : String) : Bool :=
  !s.isEmpty && s.toList.all symbolCharOk

/-- Whether the string contains any whitespace character. -/
def hasWhitespace (s : String) : Bool :=
  s.toList.any (fun c => c.isWhitespace)

inductive TokenStringKind
  | name
  | symbol
deriving DecidableEq, Repr

/-- scoreTokenString: the heuristic that ranks the two competing string
decodings. -/
def scoreTokenString (value : String) (kind : TokenStringKind) : ℚ :=
  let base : ℚ := (min value.length 12 : Nat) * (1 / 10)
  match kind with
  | .symbol =>
    base
      + (if matchesSymbolRegex value then 4 else 0)
      + (if value.length ≤ 8 then 3 else 0)
      - (if value.length ≤ 2 then 4 else 0)
      - (if hasWhitespace value then 3 else 0)
  | .name =>
    base
      + (if value.length ≥ 3 then 2 else 0)
      + (if hasWhitespace value then 1 else 0)

/-- Select the probe pair for a token string field. -/
def ErcProbes.stringProbe (o : ErcProbes) (kind : TokenStringKind) :
    ProbeResult String × ProbeResult String :=
  match kind with
  | .name => (o.nameStr, o.nameBytes32)
  | .symbol => (o.symbolStr, o.symbolBytes32)

/-- callTokenString: run the variable-length and bytes32 decodings,
normalize both, and keep the higher-scoring candidate (primary wins
ties), falling back to whichever one is present. -/
def callTokenString (o : ErcProbes) (kind : TokenStringKind) : Option String :=
  let probes := o.stringProbe kind
  let normalizedPrimary := normalizeTokenString (callStringResult probes.1)
  let normalizedFallback := normalizeTokenString (callBytes32StringResult probes.2)
  match normalizedPrimary, normalizedFallback with
  | none, _ => normalizedFallback
  | some p, none => some p
  | some p, some f =>
    if scoreTokenString f kind > scoreTokenString p kind then some f else some p

/-- callNumber (the decimals probe). -/
def callNumberResult : ProbeResult Nat → Option Nat
  | .err => none
  | .val n => some n

/-- callBigInt (totalSupply / totalAssets probes). -/
def callBigIntResult : ProbeResult Nat → Option Nat
  | .err => none
  | .val n => some n

/-- callAddress (the asset probe). -/
def callAddressResult : ProbeResult String → Option String
  | .err => none
  | .val s => some s

/-- JavaScript truthiness of an optional string (empty string is falsy),
used where the source tests a string value directly. -/
def strOptTruthy : Option String → Bool
  | none => false
  | some s => !s.isEmpty

/-- JavaScript truthiness of an optional bigint (0n is falsy), used by
the totalSupply/totalAssets ternaries when building the token record. -/
def bigIntTruthy : Option Nat → Bool
  | none => false
  | some n => n ≠ 0

/-- Stringification of an optional bigint under the truthiness ternary
of the source: 0n and absent both become undefined. -/
def bigIntToString (n : Option Nat) : Option String :=
  match n with
  | some v => if v ≠ 0 then some (toString v) else none
  | none => none

/-- updateClassification: ensure the contract sub-record exists, then
refuse to overwrite an existing Proxy classification. -/
def updateClassification (info : ChainAddressInfo) (type : TokenStandard)
    (confidence : ℚ) : ChainAddressInfo :=
  let contract := info.contract.getD {}
  if (match contract.classification with
      | some c => decide (c.type = ClassificationType.Proxy)
      | none => false) then
    { info with contract := some contract }
  else
    { info with
      contract := some
        { contract with
          classification := some
            { type := type.toClassificationType, confidence := confidence } } }

/-- ErcDetectorEnricher.supports. -/
def ercDetectorSupports (ctx : EnrichmentContext) : Bool :=
  ctx.info.isContract

/-- ErcDetectorEnricher.enrich, acting on the info record. -/
def ercDetectorEnrich (o : ErcProbes) (info : ChainAddressInfo) :
    ChainAddressInfo :=
  let supports721 := supportsInterfaceResult o.supports721
  let supports1155 := supportsInterfaceResult o.supports1155
  if supports1155 then
    let name := callTokenString o .name
    let symbol := callTokenString o .symbol
    let info := updateClassification info .erc1155 (9 / 10)
    { info with token := some { standard := .erc1155, name := name, symbol := symbol } }
  else if supports721 then
    let name := callTokenString o .name
    let symbol := callTokenString o .symbol
    let info := updateClassification info .erc721 (9 / 10)
    { info with token := some { standard := .erc721, name := name, symbol := symbol } }
  else
    let name := callTokenString o .name
    let symbol := callTokenString o .symbol
    let decimals := callNumberResult o.decimals
    let totalSupply := callBigIntResult o.totalSupply
    let detected0 : Option TokenStandard :=
      if decimals.isSome || totalSupply.isSome || strOptTruthy name || strOptTruthy symbol
      then some .erc20
      else none
    let asset := callAddressResult o.asset
    let totalAssets := callBigIntResult o.totalAssets
    let detected :=
      if strOptTruthy asset && totalAssets.isSome then some .erc4626 else detected0
    match detected with
    | some standard =>
      let info := updateClassification info standard (8 / 10)
      { info with
        token := some
          { standard := standard
            name := name
            symbol := symbol
            decimals := decimals
            totalSupply := bigIntToString totalSupply
            asset := asset
            totalAssets := bigIntToString totalAssets } }
    | none => info

/-! ## AddressResolver (resolve.ts)

The remote world of one resolve call is an oracle: getCode per
(chain, url), the measured latency per successful probe, the fast
pipeline's effect on the per-network info, and the clock.  The cache is
the entry for the resolved address.  A trace of issued getCode calls
instruments the model so that claims about issuing no endpoint calls can
be stated. -/

/-- The environment of one resolve call. -/
structure ResolveEnv where
  getCode : ChainId → Url → Except String String
  latencyOf : ChainId → Url → ℚ
  pipelineRun : ChainId → ChainAddressInfo → ChainAddressInfo
  now : Nat

/-- The value a per-chain task settles with: chainId plus the failure
reason when every candidate endpoint failed. -/
structure ChainOutcome where
  chainId : ChainId
  reason : Option String
deriving DecidableEq, Repr

/-- Result of one per-chain task: outcome, the built info (when one
endpoint succeeded), the threaded pool state, and the getCode trace. -/
structure ChainTaskResult where
  outcome : ChainOutcome
  info : Option ChainAddressInfo
  pool : RpcPool
  calls : List (ChainId × Url)

/-- The inner for-loop of a per-chain task: try each candidate endpoint
in order; on success report it, build the initial info, run the fast
pipeline, and stop; on failure report it and carry the error message to
the next candidate. -/
def runRpcCandidates (env : ResolveEnv) (chain : ChainConfig)
    (pool : RpcPool) :
    List Url → Option String → ChainTaskResult
  | [], lastError =>
    ⟨⟨chain.chainId, some (lastError.getD "no rpc configured")⟩, none, pool, []⟩
  | url :: rest, _lastError =>
    match env.getCode chain.chainId url with
    | .ok code =>
      let pool := pool.reportSuccess chain.chainId url (env.latencyOf chain.chainId url)
      let isContract := code ≠ "0x"
      let info0 : ChainAddressInfo :=
        { chainId := chain.chainId
          chainName := chain.name
          kind := if isContract then .Contract else .EOA
          exists_ := true
          isContract := isContract }
      let info := env.pipelineRun chain.chainId info0
      ⟨⟨chain.chainId, none⟩, some info, pool, [(chain.chainId, url)]⟩
    | .error msg =>
      let pool := pool.reportFailure chain.chainId url env.now
      let r := runRpcCandidates env chain pool rest (some msg)
      { r with calls := (chain.chainId, url) :: r.calls }

/-- One per-chain task: ask the pool for a preferred endpoint, build the
failover-ordered candidate list, and run it. -/
def resolveChainTask (env : ResolveEnv) (pool : RpcPool)
    (chain : ChainConfig) : ChainTaskResult :=
  let picked := pool.pick chain env.now
  let rpcUrls :=
    match picked.1 with
    | some preferred =>
      preferred.url :: chain.rpcs.filter (fun u => u ≠ preferred.url)
    | none => chain.rpcs
  runRpcCandidates env chain picked.2 rpcUrls none

/-- Fan-out over the configured chains (deterministic sequential model
of the parallel tasks; the per-chain tasks are independent). -/
def resolveChains (env : ResolveEnv) :
    RpcPool → List ChainConfig →
    List ChainOutcome × List (ChainId × ChainAddressInfo) × RpcPool ×
      List (ChainId × Url)
  | pool, [] => ([], [], pool, [])
  | pool, chain :: rest =>
    let r := resolveChainTask env pool chain
    let tail := resolveChains env r.pool rest
    (r.outcome :: tail.1,
     (match r.info with
      | some info => [(chain.chainId, info)]
      | none => []) ++ tail.2.1,
     tail.2.2.1,
     r.calls ++ tail.2.2.2)

/-- JavaScript truthiness of the optional reason string used by the
succeeded/failed filters: an empty reason string is falsy. -/
def reasonTruthy (reason : Option String) : Bool :=
  match reason with
  | none => false
  | some s => !s.isEmpty

/-- Result of one resolve call: the returned resolution, the pool state,
the getCode trace, and whether the cached artifact was returned as-is. -/
structure ResolveResult where
  resolution : AddressResolution
  pool : RpcPool
  calls : List (ChainId × Url)
  fromCache : Bool

/-- shouldRefresh: a cached resolution is stale when it recorded any
failed chain or some currently configured chain id is absent from its
per-chain map. -/
def shouldRefresh (resolution : AddressResolution) (chainIds : List ChainId) :
    Bool :=
  resolution.scan.chainsFailed.length > 0 ||
    chainIds.any (fun chainId => (resolution.perChain.lookup chainId).isNone)

/-- The fresh-resolution path of AddressResolver.resolve: fan out over
every configured chain, split the outcomes into succeeded and failed,
and assemble the AddressResolution. -/
def resolveFresh (env : ResolveEnv) (address : Address)
    (chains : List ChainConfig) (pool : RpcPool) (scanMode : String) :
    ResolveResult :=
  let chainIds := chains.map (fun chain => chain.chainId)
  let fanned := resolveChains env pool chains
  let results := fanned.1
  let chainsSucceeded :=
    (results.filter (fun r => !reasonTruthy r.reason)).map (fun r => r.chainId)
  let chainsFailed :=
    (results.filter (fun r => reasonTruthy r.reason)).map
      (fun r => ChainFailure.mk r.chainId (r.reason.getD "unknown error"))
  { resolution :=
      { address := address
        scannedAt := env.now
        scan :=
          { mode := scanMode
            chainsAttempted := chainIds
            chainsSucceeded := chainsSucceeded
            chainsFailed := chainsFailed }
        perChain := fanned.2.1 }
    pool := fanned.2.2.1
    calls := fanned.2.2.2
    fromCache := false }

/-- AddressResolver.resolve: return the cached resolution when present
and not stale, otherwise re-attempt every configured chain. -/
def AddressResolver.resolve (env : ResolveEnv)
    (cache : Option AddressResolution) (chains : List ChainConfig)
    (pool : RpcPool) (address : Address) (scanMode : String) : ResolveResult :=
  let chainIds := chains.map (fun chain => chain.chainId)
  match cache with
  | some cached =>
    if shouldRefresh cached chainIds then
      resolveFresh env address chains pool scanMode
    else
      { resolution := cached, pool := pool, calls := [], fromCache := true }
  | none => resolveFresh env address chains pool scanMode

/-! ## RateLimiter (rpc-pool.ts, second document) -/

structure RateLimitConfig where
  maxRequests : Nat
  perMs : Nat
deriving DecidableEq, Repr

/-- The two mutable fields of the RateLimiter.  The token count is
always an integer: it starts at maxRequests, refills add a floored
amount, and acquisition subtracts one. -/
structure RateLimiterState where
  tokens : Nat
  lastRefill : Nat
deriving DecidableEq, Repr

/-- refill: add floor(elapsed * maxRequests / perMs) tokens, clamped to
capacity, advancing lastRefill only when something was added. -/
def RateLimiter.refill (cfg : RateLimitConfig) (s : RateLimiterState)
    (now : Nat) : RateLimiterState :=
  if now ≤ s.lastRefill then s
  else
    let elapsed := now - s.lastRefill
    let tokensToAdd := elapsed * cfg.maxRequests / cfg.perMs
    if tokensToAdd > 0 then
      { tokens := min cfg.maxRequests (s.tokens + tokensToAdd), lastRefill := now }
    else s

/-- nextTokenDelay: the sleep the loop would take before re-checking
(at least 10 ms; the whole window when no refill is possible). -/
def RateLimiter.nextTokenDelay (cfg : RateLimitConfig) : Nat :=
  if cfg.maxRequests = 0 then cfg.perMs
  else max 10 ((cfg.perMs * 21 + cfg.maxRequests * 20 - 1) / (cfg.maxRequests * 20))

/-- How one acquire call ended: the thrown abort, a token consumed, or
the 10,000-iteration cap falling through to a plain return. -/
inductive AcquireOutcome
  | acquired
  | exhausted
  | aborted
deriving DecidableEq, Repr

/-- The while loop of RateLimiter.acquire.  The abort signal and the
clock are oracles indexed by iteration; the fuel counts the remaining
iterations of the bounded loop. -/
def acquireAux (cfg : RateLimitConfig) (signal : Nat → Bool)
    (clock : Nat → Nat) :
    Nat → Nat → RateLimiterState → AcquireOutcome × RateLimiterState
  | 0, _, s => (.exhausted, s)
  | fuel + 1, i, s =>
    if signal i then (.aborted, s)
    else
      let s := RateLimiter.refill cfg s (clock i)
      if s.tokens > 0 then (.acquired, { s with tokens := s.tokens - 1 })
      else acquireAux cfg signal clock fuel (i + 1) s

/-- RateLimiter.acquire with its literal 10,000-attempt cap. -/
def RateLimiter.acquire (cfg : RateLimitConfig) (signal : Nat → Bool)
    (clock : Nat → Nat) (s : RateLimiterState) :
    AcquireOutcome × RateLimiterState :=
  acquireAux cfg signal clock 10000 0 s

/-! ## DefiLlamaClient (extension/src/data/defillama-client.ts) -/

/-- Cached price entry: price may be absent even in a stored entry. -/
structure PriceCacheEntry where
  price : Option ℚ
  fetchedAt : Nat
deriving DecidableEq, Repr

/-- Outcome of the fetch call: a rejected promise (network error or
timeout), or a response with its ok flag and the outcome of json()
(which itself may throw on a malformed payload).  The parsed payload is
the optional coins record mapping keys to optional prices. -/
inductive FetchOutcome
  | throwErr (msg : String)
  | response (ok : Bool) (json : Except String (Option (List (String × Option ℚ))))
deriving Repr

/-- Map.set on the string-keyed price cache. -/
def strAssocSet {β : Type} : List (String × β) → String → β → List (String × β)
  | [], k, v => [(k, v)]
  | (k0, v0) :: rest, k, v =>
    if k0 = k then (k, v) :: rest else (k0, v0) :: strAssocSet rest k v

/-- DefiLlamaClient.getPrice: serve a fresh cached entry; otherwise
fetch.  A rejected fetch or a json() throw propagates (Except.error); a
non-ok response returns whatever was cached (possibly nothing); an ok
response caches and returns an entry whose price is the looked-up coin
price. -/
def DefiLlamaClient.getPrice (ttlMs : Nat)
    (cache : List (String × PriceCacheEntry)) (now : Nat)
    (fetched : FetchOutcome) (chainKey address : String) :
    Except String (Option PriceCacheEntry × List (String × PriceCacheEntry)) :=
  let key := chainKey ++ ":" ++ address
  let cached := cache.lookup key
  let isFresh :=
    match cached with
    | some c => decide ((now : Int) - (c.fetchedAt : Int) < (ttlMs : Int))
    | none => false
  if isFresh then .ok (cached, cache)
  else
    match fetched with
    | .throwErr msg => .error msg
    | .response ok json =>
      if !ok then .ok (cached, cache)
      else
        match json with
        | .error msg => .error msg
        | .ok coins =>
          let price :=
            match coins with
            | none => none
            | some record =>
              match record.lookup key with
              | none => none
              | some p => p
          let entry : PriceCacheEntry := { price := price, fetchedAt := now }
          .ok (some entry, strAssocSet cache key entry)

/-! ## Concrete inputs used by witnesses -/

/-- A concrete probe oracle: the multi-token introspection succeeds and
returns name/symbol probes, every other probe fails. -/
def probes1155Only : ErcProbes :=
  { supports721 := .err
    supports1155 := .val true
    nameStr := .val "Tok"
    symbolStr := .err
    nameBytes32 := .err
    symbolBytes32 := .val "TKN"
    decimals := .err
    totalSupply := .err
    asset := .err
    totalAssets := .err }

/-- A concrete contract info record already carrying a Proxy
classification (confidence 0.7) and a token record to be overwritten. -/
def proxyContractInfo : ChainAddressInfo :=
  { chainId := 1
    chainName := "eth"
    kind := .Contract
    exists_ := true
    isContract := true
    contract := some { classification := some { type := .Proxy, confidence := 7 / 10 } }
    token := some { standard := .erc20 } }

/-- A concrete contract info record with no classification yet. -/
def plainContractInfo : ChainAddressInfo :=
  { chainId := 1
    chainName := "eth"
    kind := .Contract
    exists_ := true
    isContract := true }

/-- A concrete pool with one chain and one endpoint two failures short
of nothing (failures 2, threshold 3). -/
def witnessPool : RpcPool :=
  { settings := ⟨false, 100, 3⟩
    pools := [(1, [{ url := "a", failures := 2 }])]
    roundRobinIndex := [] }

/-- A concrete resolve environment: every endpoint answers empty code
immediately and the pipeline is a no-op. -/
def witnessEnv : ResolveEnv :=
  { getCode := fun _ _ => .ok "0x"
    latencyOf := fun _ _ => 0
    pipelineRun := fun _ info => info
    now := 0 }

/-- A concrete fresh cached resolution for chain 1. -/
def witnessCachedResolution : AddressResolution :=
  { address := "0xa"
    scannedAt := 0
    scan :=
      { mode := "m"
        chainsAttempted := [1]
        chainsSucceeded := [1]
        chainsFailed := [] }
    perChain :=
      [(1, { chainId := 1, chainName := "eth", kind := .EOA, exists_ := true,
             isContract := false })] }

/-! ## Theorems -/

/-- Unfolding of ercDetectorEnrich into its branch structure. -/
theorem ercDetectorEnrich_eq (o : ErcProbes) (info : ChainAddressInfo) :
    ercDetectorEnrich o info =
      if supportsInterfaceResult o.supports1155 then
        { updateClassification info .erc1155 (9 / 10) with
          token := some
            ⟨.erc1155, callTokenString o .name, callTokenString o .symbol,
              none, none, none, none⟩ }
      else if supportsInterfaceResult o.supports721 then
        { updateClassification info .erc721 (9 / 10) with
          token := some
            ⟨.erc721, callTokenString o .name, callTokenString o .symbol,
              none, none, none, none⟩ }
      else
        match
          (if strOptTruthy (callAddressResult o.asset) &&
              (callBigIntResult o.totalAssets).isSome then
            some TokenStandard.erc4626
          else if (callNumberResult o.decimals).isSome ||
              (callBigIntResult o.totalSupply).isSome ||
              strOptTruthy (callTokenString o .name) ||
              strOptTruthy (callTokenString o .symbol) then
            some TokenStandard.erc20
          else none) with
        | some standard =>
          { updateClassification info standard (8 / 10) with
            token := some
              ⟨standard, callTokenString o .name, callTokenString o .symbol,
                callNumberResult o.decimals,
                bigIntToString (callBigIntResult o.totalSupply),
                callAddressResult o.asset,
                bigIntToString (callBigIntResult o.totalAssets)⟩ }
        | none => info := rfl

/-- When the info record already carries a Proxy classification, every
updateClassification call returns the info with its contract record
intact. -/
theorem updateClassification_proxy {info : ChainAddressInfo}
    {cr : ContractRecord} {c : ContractClassification}
    (hc : info.contract = some cr) (hcls : cr.classification = some c)
    (hproxy : c.type = ClassificationType.Proxy) (std : TokenStandard)
    (conf : ℚ) :
    updateClassification info std conf = { info with contract := some cr } := by
  simp [updateClassification, hc, hcls, hproxy]

/-- Shared helper: the detector leaves the contract record of a
proxy-classified info unchanged in every branch. -/
theorem ercDetectorEnrich_contract_proxy (o : ErcProbes)
    {info : ChainAddressInfo} {cr : ContractRecord}
    {c : ContractClassification}
    (hc : info.contract = some cr) (hcls : cr.classification = some c)
    (hproxy : c.type = ClassificationType.Proxy) :
    (ercDetectorEnrich o info).contract = some cr := by
  rw [ercDetectorEnrich_eq]
  by_cases h15 : supportsInterfaceResult o.supports1155
  · simp [h15, updateClassification_proxy hc hcls hproxy]
  · by_cases h72 : supportsInterfaceResult o.supports721
    · simp [h15, h72, updateClassification_proxy hc hcls hproxy]
    · simp only [h15, h72, if_false, Bool.false_eq_true]
      split
      · simp [updateClassification_proxy hc hcls hproxy]
      · exact hc

/-- Helper for C9: with a quiescent signal, any positive-fuel run of the
acquire loop never ends in the thrown abort, and an exhausted run has
never taken the token-consuming branch (its final token count is zero,
and zero tokens is precisely why each iteration kept looping). -/
theorem acquireAux_quiescent (cfg : RateLimitConfig) (signal : Nat → Bool)
    (clock : Nat → Nat) (hsig : ∀ i, signal i = false) :
    ∀ fuel i s,
      (acquireAux cfg signal clock (fuel + 1) i s).1 ≠ AcquireOutcome.aborted ∧
      ((acquireAux cfg signal clock (fuel + 1) i s).1 = AcquireOutcome.exhausted →
        (acquireAux cfg signal clock (fuel + 1) i s).2.tokens = 0) := by
  intro fuel
  induction fuel with
  | zero =>
    intro i s
    by_cases h : (RateLimiter.refill cfg s (clock i)).tokens > 0
    · simp [acquireAux, hsig, h]
    · simp [acquireAux, hsig, h]
      omega
  | succ fuel ih =>
    intro i s
    by_cases h : (RateLimiter.refill cfg s (clock i)).tokens > 0
    · simp [acquireAux, hsig, h]
    · have step :
        acquireAux cfg signal clock (fuel + 1 + 1) i s =
          acquireAux cfg signal clock (fuel + 1) (i + 1)
            (RateLimiter.refill cfg s (clock i)) := by
        simp [acquireAux, hsig, h]
      rw [step]
      exact ih (i + 1) (RateLimiter.refill cfg s (clock i))

/-- C9: when the cancellation signal never fires and the 10,000-iteration
retry cap of RateLimiter.acquire is exhausted without a token becoming
available, acquire resolves normally (it never ends in the thrown abort)
without consuming a token: the exhausted run returns with a zero token
count and never took the consuming branch, indistinguishable to the
caller from a genuine acquisition. -/
theorem rateLimiter_acquire_cap_resolves_normally
    (cfg : RateLimitConfig) (signal : Nat → Bool) (clock : Nat → Nat)
    (s : RateLimiterState) (hsig : ∀ i, signal i = false) :
    (RateLimiter.acquire cfg signal clock s).1 ≠ AcquireOutcome.aborted ∧
    ((RateLimiter.acquire cfg signal clock s).1 = AcquireOutcome.exhausted →
      (RateLimiter.acquire cfg signal clock s).2.tokens = 0) :=
  acquireAux_quiescent cfg signal clock hsig 9999 0 s

/-- Witness for C9 at a concrete configuration, clock and state. -/
theorem rateLimiter_acquire_cap_witness :
    (RateLimiter.acquire ⟨1, 1⟩ (fun _ => false) (fun _ => 0) ⟨1, 0⟩).1 ≠
        AcquireOutcome.aborted ∧
    ((RateLimiter.acquire ⟨1, 1⟩ (fun _ => false) (fun _ => 0) ⟨1, 0⟩).1 =
        AcquireOutcome.exhausted →
      (RateLimiter.acquire ⟨1, 1⟩ (fun _ => false) (fun _ => 0) ⟨1, 0⟩).2.tokens = 0) :=
  rateLimiter_acquire_cap_resolves_normally ⟨1, 1⟩ (fun _ => false) (fun _ => 0)
    ⟨1, 0⟩ (fun _ => rfl)

/-- Counterexample for C8: with a stale cached entry carrying price 1
and a non-2xx response, getPrice returns the previously cached entry,
not absent, contradicting the claim that a non-2xx lookup is absent. -/
theorem defillama_nonok_returns_cached_counterexample :
    DefiLlamaClient.getPrice 300000 [("eth:0xabc", ⟨some 1, 0⟩)] 1000000
        (FetchOutcome.response false (Except.ok none)) "eth" "0xabc" =
      Except.ok (some ⟨some 1, 0⟩, [("eth:0xabc", ⟨some 1, 0⟩)]) ∧
    some (⟨some 1, 0⟩ : PriceCacheEntry) ≠ (none : Option PriceCacheEntry) := by
  exact ⟨rfl, by simp⟩

/-- C8 (amended): when the cached entry for the key is absent or expired,
getPrice on a non-2xx response returns the previously cached entry if one
exists (even though it is stale) and absent otherwise, leaving the cache
unchanged; a rejected fetch (network error or timeout) and a json() parse
failure propagate as errors rather than returning absent. -/
theorem defillama_getPrice_amended (ttlMs : Nat)
    (cache : List (String × PriceCacheEntry)) (now : Nat)
    (chainKey address : String)
    (hstale : ∀ c, cache.lookup (chainKey ++ ":" ++ address) = some c →
      (ttlMs : Int) ≤ (now : Int) - (c.fetchedAt : Int)) :
    (∀ json, DefiLlamaClient.getPrice ttlMs cache now
        (FetchOutcome.response false json) chainKey address =
      Except.ok (cache.lookup (chainKey ++ ":" ++ address), cache)) ∧
    (∀ msg, DefiLlamaClient.getPrice ttlMs cache now
        (FetchOutcome.throwErr msg) chainKey address = Except.error msg) ∧
    (∀ msg, DefiLlamaClient.getPrice ttlMs cache now
        (FetchOutcome.response true (Except.error msg)) chainKey address =
      Except.error msg) := by
  have hfresh :
      (match cache.lookup (chainKey ++ ":" ++ address) with
        | some c => decide ((now : Int) - (c.fetchedAt : Int) < (ttlMs : Int))
        | none => false) = false := by
    cases hc : cache.lookup (chainKey ++ ":" ++ address) with
    | none => simp
    | some c =>
      have := hstale c hc
      simp
      omega
  refine ⟨?_, ?_, ?_⟩ <;>
    intro x <;>
    simp [DefiLlamaClient.getPrice, hfresh]

/-- Witness for C8's amended theorem at a concrete stale cache. -/
theorem defillama_getPrice_amended_witness :
    (∀ json, DefiLlamaClient.getPrice 300000 [("eth:0xabc", ⟨some 1, 0⟩)] 1000000
        (FetchOutcome.response false json) "eth" "0xabc" =
      Except.ok (([("eth:0xabc", (⟨some 1, 0⟩ : PriceCacheEntry))]).lookup ("eth" ++ ":" ++ "0xabc"),
        [("eth:0xabc", ⟨some 1, 0⟩)])) ∧
    (∀ msg, DefiLlamaClient.getPrice 300000 [("eth:0xabc", ⟨some 1, 0⟩)] 1000000
        (FetchOutcome.throwErr msg) "eth" "0xabc" = Except.error msg) ∧
    (∀ msg, DefiLlamaClient.getPrice 300000 [("eth:0xabc", ⟨some 1, 0⟩)] 1000000
        (FetchOutcome.response true (Except.error msg)) "eth" "0xabc" =
      Except.error msg) :=
  defillama_getPrice_amended 300000 [("eth:0xabc", ⟨some 1, 0⟩)] 1000000 "eth" "0xabc"
    (by
      intro c hc
      have h0 : ([("eth:0xabc", (⟨some 1, 0⟩ : PriceCacheEntry))]).lookup
          ("eth" ++ ":" ++ "0xabc") = some ⟨some 1, 0⟩ := rfl
      rw [h0] at hc
      injection hc with h1
      subst h1
      decide)

/-- C2: the pipeline sorts its enrichers in ascending priority order at
construction, and a failing enricher is caught and logged — the run of
the remaining enrichers proceeds from the (partially mutated) context
exactly as it would after a successful step, so every later enricher
still runs; run itself always returns a RunResult and never propagates
an enricher's error (it is a total function whose failing and succeeding
steps both continue with the tail run). -/
theorem pipeline_fault_isolation :
    (∀ list : List Enricher,
      (EnrichmentPipeline.ofList list).enrichers.Pairwise
        (fun a b => a.priority ≤ b.priority)) ∧
    (∀ (e : Enricher) (rest : List Enricher) (ctx ctx1 : EnrichmentContext)
        (msg : String),
      e.supports ctx = true → e.enrich ctx = (ctx1, some msg) →
      runEnrichers false (e :: rest) ctx =
        ⟨(runEnrichers false rest ctx1).ctx,
         enricherWarning e msg :: (runEnrichers false rest ctx1).warnings,
         e.id :: (runEnrichers false rest ctx1).executed⟩) ∧
    (∀ (e : Enricher) (rest : List Enricher) (ctx ctx1 : EnrichmentContext),
      e.supports ctx = true → e.enrich ctx = (ctx1, none) →
      runEnrichers false (e :: rest) ctx =
        ⟨(runEnrichers false rest ctx1).ctx,
         (runEnrichers false rest ctx1).warnings,
         e.id :: (runEnrichers false rest ctx1).executed⟩) := by
  refine ⟨?_, ?_, ?_⟩
  · intro list
    have h := @List.sorted_mergeSort Enricher
      (fun a b : Enricher => decide (a.priority ≤ b.priority))
      (fun a b c hab hbc => by
        simp only [decide_eq_true_eq] at hab hbc ⊢
        omega)
      (fun a b => by
        simp only [Bool.or_eq_true, decide_eq_true_eq]
        omega)
      list
    simp only [EnrichmentPipeline.ofList]
    exact List.Pairwise.imp (by
      intro a b hab
      simpa using hab) h
  · intro e rest ctx ctx1 msg hs he
    simp [runEnrichers, hs, he]
  · intro e rest ctx ctx1 hs he
    simp [runEnrichers, hs, he]

/-- Witness for C2: a concrete always-failing enricher followed by a
concrete mutating enricher; the failing step logs and the tail still
runs. -/
theorem pipeline_fault_isolation_witness :
    runEnrichers false
        [⟨"mid", 10, fun _ => true, fun c => (c, some "boom")⟩,
         ⟨"last", 20, fun _ => true,
          fun c => ({ c with info := { c.info with nonce := some 7 } }, none)⟩]
        ⟨"0xa", 1, ⟨1, "eth", ["r"], none⟩,
          ⟨1, "eth", .EOA, true, false, none, none, none, none⟩, none⟩ =
      ⟨(runEnrichers false
          [⟨"last", 20, fun _ => true,
            fun c => ({ c with info := { c.info with nonce := some 7 } }, none)⟩]
          ⟨"0xa", 1, ⟨1, "eth", ["r"], none⟩,
            ⟨1, "eth", .EOA, true, false, none, none, none, none⟩, none⟩).ctx,
       enricherWarning ⟨"mid", 10, fun _ => true, fun c => (c, some "boom")⟩ "boom" ::
         (runEnrichers false
           [⟨"last", 20, fun _ => true,
             fun c => ({ c with info := { c.info with nonce := some 7 } }, none)⟩]
           ⟨"0xa", 1, ⟨1, "eth", ["r"], none⟩,
             ⟨1, "eth", .EOA, true, false, none, none, none, none⟩, none⟩).warnings,
       "mid" ::
         (runEnrichers false
           [⟨"last", 20, fun _ => true,
             fun c => ({ c with info := { c.info with nonce := some 7 } }, none)⟩]
           ⟨"0xa", 1, ⟨1, "eth", ["r"], none⟩,
             ⟨1, "eth", .EOA, true, false, none, none, none, none⟩, none⟩).executed⟩ :=
  pipeline_fault_isolation.2.1
    ⟨"mid", 10, fun _ => true, fun c => (c, some "boom")⟩
    [⟨"last", 20, fun _ => true,
      fun c => ({ c with info := { c.info with nonce := some 7 } }, none)⟩]
    ⟨"0xa", 1, ⟨1, "eth", ["r"], none⟩,
      ⟨1, "eth", .EOA, true, false, none, none, none, none⟩, none⟩
    ⟨"0xa", 1, ⟨1, "eth", ["r"], none⟩,
      ⟨1, "eth", .EOA, true, false, none, none, none, none⟩, none⟩
    "boom" rfl rfl

/-- C3: an existing Proxy classification survives the standard detector
unchanged (same tagged classification value, hence same type and same
confidence), whatever its probes detect. -/
theorem proxy_classification_preserved (o : ErcProbes)
    (info : ChainAddressInfo) (cr : ContractRecord)
    (c : ContractClassification)
    (hc : info.contract = some cr) (hcls : cr.classification = some c)
    (hproxy : c.type = ClassificationType.Proxy) :
    ((ercDetectorEnrich o info).contract.bind fun r => r.classification) =
      some c := by
  rw [ercDetectorEnrich_contract_proxy o hc hcls hproxy]
  simpa using hcls

/-- Witness for C3: a proxy-classified context run against probes that
detect a multi-token standard keeps classification Proxy 0.7. -/
theorem proxy_classification_preserved_witness :
    ((ercDetectorEnrich probes1155Only proxyContractInfo).contract.bind
        fun r => r.classification) =
      some { type := .Proxy, confidence := 7 / 10 } :=
  proxy_classification_preserved probes1155Only proxyContractInfo
    { classification := some { type := .Proxy, confidence := 7 / 10 } }
    { type := .Proxy, confidence := 7 / 10 } rfl rfl rfl

/-- C10: the Proxy-precedence guard shields only the classification
field.  On a proxy-classified context the detector still overwrites the
token sub-record with whatever standard its probes detect, in every
detecting branch, while the classification stays the Proxy it was. -/
theorem proxy_guard_shields_only_classification (o : ErcProbes)
    (info : ChainAddressInfo) (cr : ContractRecord)
    (c : ContractClassification)
    (hc : info.contract = some cr) (hcls : cr.classification = some c)
    (hproxy : c.type = ClassificationType.Proxy) :
    ((ercDetectorEnrich o info).contract.bind fun r => r.classification) =
      some c ∧
    (supportsInterfaceResult o.supports1155 = true →
      (ercDetectorEnrich o info).token =
        some ⟨.erc1155, callTokenString o .name, callTokenString o .symbol,
          none, none, none, none⟩) ∧
    (supportsInterfaceResult o.supports1155 = false →
      supportsInterfaceResult o.supports721 = true →
      (ercDetectorEnrich o info).token =
        some ⟨.erc721, callTokenString o .name, callTokenString o .symbol,
          none, none, none, none⟩) ∧
    (supportsInterfaceResult o.supports1155 = false →
      supportsInterfaceResult o.supports721 = false →
      (strOptTruthy (callAddressResult o.asset) &&
        (callBigIntResult o.totalAssets).isSome) = true →
      (ercDetectorEnrich o info).token =
        some ⟨.erc4626, callTokenString o .name, callTokenString o .symbol,
          callNumberResult o.decimals,
          bigIntToString (callBigIntResult o.totalSupply),
          callAddressResult o.asset,
          bigIntToString (callBigIntResult o.totalAssets)⟩) ∧
    (supportsInterfaceResult o.supports1155 = false →
      supportsInterfaceResult o.supports721 = false →
      (strOptTruthy (callAddressResult o.asset) &&
        (callBigIntResult o.totalAssets).isSome) = false →
      ((callNumberResult o.decimals).isSome ||
        (callBigIntResult o.totalSupply).isSome ||
        strOptTruthy (callTokenString o .name) ||
        strOptTruthy (callTokenString o .symbol)) = true →
      (ercDetectorEnrich o info).token =
        some ⟨.erc20, callTokenString o .name, callTokenString o .symbol,
          callNumberResult o.decimals,
          bigIntToString (callBigIntResult o.totalSupply),
          callAddressResult o.asset,
          bigIntToString (callBigIntResult o.totalAssets)⟩) := by
  refine ⟨?_, ?_, ?_, ?_, ?_⟩
  · rw [ercDetectorEnrich_contract_proxy o hc hcls hproxy]
    simpa using hcls
  · intro h15
    rw [ercDetectorEnrich_eq]
    simp [h15]
  · intro h15 h72
    rw [ercDetectorEnrich_eq]
    simp [h15, h72]
  · intro h15 h72 hvault
    rw [ercDetectorEnrich_eq]
    simp [h15, h72, hvault]
  · intro h15 h72 hvault hfun
    rw [ercDetectorEnrich_eq]
    simp [h15, h72, hvault, hfun]

/-- Witness for C10: on the concrete proxy-classified context the
multi-token branch replaces the pre-existing token record while the
Proxy classification survives. -/
theorem proxy_guard_shields_only_classification_witness :
    ((ercDetectorEnrich probes1155Only proxyContractInfo).contract.bind
        fun r => r.classification) =
      some { type := .Proxy, confidence := 7 / 10 } ∧
    (ercDetectorEnrich probes1155Only proxyContractInfo).token =
      some ⟨.erc1155, callTokenString probes1155Only .name,
        callTokenString probes1155Only .symbol, none, none, none, none⟩ :=
  ⟨(proxy_guard_shields_only_classification probes1155Only proxyContractInfo
      { classification := some { type := .Proxy, confidence := 7 / 10 } }
      { type := .Proxy, confidence := 7 / 10 } rfl rfl rfl).1,
   (proxy_guard_shields_only_classification probes1155Only proxyContractInfo
      { classification := some { type := .Proxy, confidence := 7 / 10 } }
      { type := .Proxy, confidence := 7 / 10 } rfl rfl rfl).2.1 rfl⟩

/-- When no Proxy classification is present, updateClassification
installs the new tagged classification on the (ensured) contract
record. -/
theorem updateClassification_notProxy {info : ChainAddressInfo}
    (hnp : ∀ cr c, info.contract = some cr → cr.classification = some c →
      c.type ≠ ClassificationType.Proxy) (std : TokenStandard) (conf : ℚ) :
    updateClassification info std conf =
      { info with
        contract := some
          { info.contract.getD {} with
            classification := some ⟨std.toClassificationType, conf, none⟩ } } := by
  unfold updateClassification
  cases hc : info.contract with
  | none => simp
  | some cr =>
    cases hcls : cr.classification with
    | none => simp [hcls]
    | some c =>
      have hne := hnp cr c hc hcls
      simp [hcls, hne]

/-- C7: the standard detector classifies a non-proxy contract exactly as
its probes dictate — multi-token introspection wins with ERC1155 at 0.9,
then NFT introspection with ERC721 at 0.9, each branch writing a token
record carrying the probed name/symbol; otherwise the contract becomes
ERC4626 at 0.8 when both vault probes resolve, ERC20 at 0.8 when any
fungible probe resolves, and is left untouched when nothing resolves;
and a failed probe folds to an unknown field (false for introspection,
absent for value probes), so no probe failure escapes the enricher. -/
theorem erc_standard_detection (o : ErcProbes) (info : ChainAddressInfo)
    (hnp : ∀ cr c, info.contract = some cr → cr.classification = some c →
      c.type ≠ ClassificationType.Proxy) :
    (supportsInterfaceResult o.supports1155 = true →
      ((ercDetectorEnrich o info).contract.bind fun r => r.classification) =
        some ⟨.ERC1155, 9 / 10, none⟩ ∧
      (ercDetectorEnrich o info).token =
        some ⟨.erc1155, callTokenString o .name, callTokenString o .symbol,
          none, none, none, none⟩) ∧
    (supportsInterfaceResult o.supports1155 = false →
      supportsInterfaceResult o.supports721 = true →
      ((ercDetectorEnrich o info).contract.bind fun r => r.classification) =
        some ⟨.ERC721, 9 / 10, none⟩ ∧
      (ercDetectorEnrich o info).token =
        some ⟨.erc721, callTokenString o .name, callTokenString o .symbol,
          none, none, none, none⟩) ∧
    (supportsInterfaceResult o.supports1155 = false →
      supportsInterfaceResult o.supports721 = false →
      (strOptTruthy (callAddressResult o.asset) &&
        (callBigIntResult o.totalAssets).isSome) = true →
      ((ercDetectorEnrich o info).contract.bind fun r => r.classification) =
        some ⟨.ERC4626, 8 / 10, none⟩ ∧
      (ercDetectorEnrich o info).token =
        some ⟨.erc4626, callTokenString o .name, callTokenString o .symbol,
          callNumberResult o.decimals,
          bigIntToString (callBigIntResult o.totalSupply),
          callAddressResult o.asset,
          bigIntToString (callBigIntResult o.totalAssets)⟩) ∧
    (supportsInterfaceResult o.supports1155 = false →
      supportsInterfaceResult o.supports721 = false →
      (strOptTruthy (callAddressResult o.asset) &&
        (callBigIntResult o.totalAssets).isSome) = false →
      ((callNumberResult o.decimals).isSome ||
        (callBigIntResult o.totalSupply).isSome ||
        strOptTruthy (callTokenString o .name) ||
        strOptTruthy (callTokenString o .symbol)) = true →
      ((ercDetectorEnrich o info).contract.bind fun r => r.classification) =
        some ⟨.ERC20, 8 / 10, none⟩ ∧
      (ercDetectorEnrich o info).token =
        some ⟨.erc20, callTokenString o .name, callTokenString o .symbol,
          callNumberResult o.decimals,
          bigIntToString (callBigIntResult o.totalSupply),
          callAddressResult o.asset,
          bigIntToString (callBigIntResult o.totalAssets)⟩) ∧
    (supportsInterfaceResult o.supports1155 = false →
      supportsInterfaceResult o.supports721 = false →
      (strOptTruthy (callAddressResult o.asset) &&
        (callBigIntResult o.totalAssets).isSome) = false →
      ((callNumberResult o.decimals).isSome ||
        (callBigIntResult o.totalSupply).isSome ||
        strOptTruthy (callTokenString o .name) ||
        strOptTruthy (callTokenString o .symbol)) = false →
      ercDetectorEnrich o info = info) ∧
    ((o.supports1155 = .err → supportsInterfaceResult o.supports1155 = false) ∧
     (o.supports721 = .err → supportsInterfaceResult o.supports721 = false) ∧
     (o.decimals = .err → callNumberResult o.decimals = none) ∧
     (o.totalSupply = .err → callBigIntResult o.totalSupply = none) ∧
     (o.asset = .err → callAddressResult o.asset = none) ∧
     (o.totalAssets = .err → callBigIntResult o.totalAssets = none) ∧
     (o.nameStr = .err → o.nameBytes32 = .err → callTokenString o .name = none) ∧
     (o.symbolStr = .err → o.symbolBytes32 = .err →
       callTokenString o .symbol = none)) := by
  refine ⟨?_, ?_, ?_, ?_, ?_, ?_, ?_, ?_, ?_, ?_, ?_, ?_, ?_⟩
  · intro h15
    rw [ercDetectorEnrich_eq]
    simp [h15, updateClassification_notProxy hnp, TokenStandard.toClassificationType]
  · intro h15 h72
    rw [ercDetectorEnrich_eq]
    simp [h15, h72, updateClassification_notProxy hnp, TokenStandard.toClassificationType]
  · intro h15 h72 hvault
    rw [ercDetectorEnrich_eq]
    simp [h15, h72, hvault, updateClassification_notProxy hnp,
      TokenStandard.toClassificationType]
  · intro h15 h72 hvault hfun
    rw [ercDetectorEnrich_eq]
    simp [h15, h72, hvault, hfun, updateClassification_notProxy hnp,
      TokenStandard.toClassificationType]
  · intro h15 h72 hvault hfun
    rw [ercDetectorEnrich_eq]
    simp [h15, h72, hvault, hfun]
  · intro herr
    rw [herr]
    rfl
  · intro herr
    rw [herr]
    rfl
  · intro herr
    rw [herr]
    rfl
  · intro herr
    rw [herr]
    rfl
  · intro herr
    rw [herr]
    rfl
  · intro herr
    rw [herr]
    rfl
  · intro h1 h2
    simp [callTokenString, ErcProbes.stringProbe, h1, h2, callStringResult,
      callBytes32StringResult, normalizeTokenString]
  · intro h1 h2
    simp [callTokenString, ErcProbes.stringProbe, h1, h2, callStringResult,
      callBytes32StringResult, normalizeTokenString]

/-- Witness for C7: probes that only answer the multi-token
introspection classify the plain contract as ERC1155 at 0.9 with the
probed name and symbol. -/
theorem erc_standard_detection_witness :
    ((ercDetectorEnrich probes1155Only plainContractInfo).contract.bind
        fun r => r.classification) =
      some ⟨.ERC1155, 9 / 10, none⟩ ∧
    (ercDetectorEnrich probes1155Only plainContractInfo).token =
      some ⟨.erc1155, callTokenString probes1155Only .name,
        callTokenString probes1155Only .symbol, none, none, none, none⟩ :=
  (erc_standard_detection probes1155Only plainContractInfo
    (by intro cr c h hc hcp; simp [plainContractInfo] at h)).1 rfl

/-! ### Association list toolkit for the pool state -/

theorem natBeq_false_of_ne {k k0 : Nat} (h : k ≠ k0) : (k == k0) = false := by
  simpa using h

theorem lookup_assocSet_self {β : Type} (l : List (Nat × β)) (k : Nat) (v : β) :
    (assocSet l k v).lookup k = some v := by
  induction l with
  | nil => simp [assocSet]
  | cons hd tl ih =>
    obtain ⟨k0, v0⟩ := hd
    by_cases h : k0 = k
    · subst h
      simp [assocSet]
    · rw [show assocSet ((k0, v0) :: tl) k v = (k0, v0) :: assocSet tl k v from by
        simp [assocSet, h]]
      rw [List.lookup_cons, natBeq_false_of_ne (fun he => h he.symm)]
      exact ih

theorem lookup_assocSet_ne {β : Type} (l : List (Nat × β)) (k k2 : Nat) (v : β)
    (hne : k2 ≠ k) : (assocSet l k v).lookup k2 = l.lookup k2 := by
  induction l with
  | nil => simp [assocSet, List.lookup_cons, natBeq_false_of_ne hne]
  | cons hd tl ih =>
    obtain ⟨k0, v0⟩ := hd
    by_cases h : k0 = k
    · subst h
      rw [show assocSet ((k0, v0) :: tl) k0 v = (k0, v) :: tl from by
        simp [assocSet]]
      rw [List.lookup_cons, List.lookup_cons, natBeq_false_of_ne hne]
    · rw [show assocSet ((k0, v0) :: tl) k v = (k0, v0) :: assocSet tl k v from by
        simp [assocSet, h]]
      rw [List.lookup_cons, List.lookup_cons]
      cases hhd : (k2 == k0) <;> simp [ih]

theorem lookup_assocUpdate_self {β : Type} (l : List (Nat × β)) (k : Nat)
    (f : β → β) : (assocUpdate l k f).lookup k = (l.lookup k).map f := by
  induction l with
  | nil => simp [assocUpdate]
  | cons hd tl ih =>
    obtain ⟨k0, v0⟩ := hd
    by_cases h : k0 = k
    · subst h
      rw [show assocUpdate ((k0, v0) :: tl) k0 f = (k0, f v0) :: tl from by
        simp [assocUpdate]]
      simp [List.lookup_cons]
    · rw [show assocUpdate ((k0, v0) :: tl) k f = (k0, v0) :: assocUpdate tl k f from by
        simp [assocUpdate, h]]
      rw [List.lookup_cons, List.lookup_cons,
        natBeq_false_of_ne (fun he => h he.symm)]
      exact ih

theorem lookup_assocUpdate_ne {β : Type} (l : List (Nat × β)) (k k2 : Nat)
    (f : β → β) (hne : k2 ≠ k) :
    (assocUpdate l k f).lookup k2 = l.lookup k2 := by
  induction l with
  | nil => simp [assocUpdate]
  | cons hd tl ih =>
    obtain ⟨k0, v0⟩ := hd
    by_cases h : k0 = k
    · subst h
      rw [show assocUpdate ((k0, v0) :: tl) k0 f = (k0, f v0) :: tl from by
        simp [assocUpdate]]
      rw [List.lookup_cons, List.lookup_cons, natBeq_false_of_ne hne]
    · rw [show assocUpdate ((k0, v0) :: tl) k f = (k0, v0) :: assocUpdate tl k f from by
        simp [assocUpdate, h]]
      rw [List.lookup_cons, List.lookup_cons]
      cases hhd : (k2 == k0) <;> simp [ih]

theorem assocUpdate_lookup_none {β : Type} (l : List (Nat × β)) (k : Nat)
    (f : β → β) (hnone : l.lookup k = none) : assocUpdate l k f = l := by
  induction l with
  | nil => rfl
  | cons hd tl ih =>
    obtain ⟨k0, v0⟩ := hd
    rw [List.lookup_cons] at hnone
    by_cases h : k = k0
    · rw [show (k == k0) = true from by simpa using h] at hnone
      simp at hnone
    · rw [natBeq_false_of_ne h] at hnone
      simp only [assocUpdate]
      rw [if_neg (fun he => h he.symm), ih hnone]

theorem assocUpdate_lookup_fixed {β : Type} (l : List (Nat × β)) (k : Nat)
    (f : β → β) (v : β) (hv : l.lookup k = some v) (hfix : f v = v) :
    assocUpdate l k f = l := by
  induction l with
  | nil => simp at hv
  | cons hd tl ih =>
    obtain ⟨k0, v0⟩ := hd
    rw [List.lookup_cons] at hv
    by_cases h : k = k0
    · rw [show (k == k0) = true from by simpa using h] at hv
      simp only [assocUpdate]
      rw [if_pos h.symm]
      have hveq : v0 = v := by simpa using hv
      subst hveq
      rw [hfix]
    · rw [natBeq_false_of_ne h] at hv
      simp only [assocUpdate]
      rw [if_neg (fun he => h he.symm), ih hv]

theorem find?_updateFirstBy (l : List RpcHealth) (pred : RpcHealth → Bool)
    (f : RpcHealth → RpcHealth)
    (hpres : ∀ r, pred r = true → pred (f r) = true) :
    (updateFirstBy l pred f).find? pred = (l.find? pred).map f := by
  induction l with
  | nil => rfl
  | cons hd tl ih =>
    by_cases h : pred hd
    · simp [updateFirstBy, h, List.find?_cons, hpres hd h]
    · have h2 : pred hd = false := by simpa using h
      simp [updateFirstBy, h2, List.find?_cons, ih]

theorem updateFirstBy_find?_none (l : List RpcHealth) (pred : RpcHealth → Bool)
    (f : RpcHealth → RpcHealth) (hnone : l.find? pred = none) :
    updateFirstBy l pred f = l := by
  induction l with
  | nil => rfl
  | cons hd tl ih =>
    rw [List.find?_cons] at hnone
    by_cases h : pred hd
    · simp [h] at hnone
    · have h2 : pred hd = false := by simpa using h
      rw [h2] at hnone
      simp [updateFirstBy, h2, ih hnone]

/-- The result of findRpc after updateRpc on the same pair, for
url-preserving updates. -/
theorem findRpc_updateRpc (p : RpcPool) (chainId : ChainId) (url : Url)
    (f : RpcHealth → RpcHealth) (hurl : ∀ r, (f r).url = r.url) :
    (p.updateRpc chainId url f).findRpc chainId url =
      (p.findRpc chainId url).map f := by
  simp only [RpcPool.updateRpc, RpcPool.findRpc]
  rw [lookup_assocUpdate_self]
  cases hpool : p.pools.lookup chainId with
  | none => rfl
  | some pool =>
    simp only [Option.map_some', Option.some_bind]
    exact find?_updateFirstBy pool _ f (by
      intro r hr
      simp only [decide_eq_true_eq] at hr ⊢
      rw [hurl r]
      exact hr)

/-- updateRpc on an unknown (chain, url) pair is the identity. -/
theorem updateRpc_unknown (p : RpcPool) (chainId : ChainId) (url : Url)
    (f : RpcHealth → RpcHealth) (hnone : p.findRpc chainId url = none) :
    p.updateRpc chainId url f = p := by
  simp only [RpcPool.findRpc] at hnone
  simp only [RpcPool.updateRpc]
  cases hpool : p.pools.lookup chainId with
  | none =>
    have := assocUpdate_lookup_none p.pools chainId
      (fun pool => updateFirstBy pool (fun rpc => rpc.url = url) f) hpool
    simp [this]
  | some pool =>
    rw [hpool] at hnone
    simp only [Option.some_bind] at hnone
    have hfix := updateFirstBy_find?_none pool (fun rpc => decide (rpc.url = url)) f
      (by simpa using hnone)
    have := assocUpdate_lookup_fixed p.pools chainId
      (fun pool => updateFirstBy pool (fun rpc => rpc.url = url) f) pool hpool
      (by simpa using hfix)
    simp [this]

/-! ### pick / ensurePool facts -/

theorem ensurePool_known (p : RpcPool) (chain : ChainConfig)
    (pool0 : List RpcHealth) (h : p.pools.lookup chain.chainId = some pool0) :
    p.ensurePool chain = (pool0, p) := by
  simp [RpcPool.ensurePool, h]

theorem ensurePool_fresh (p : RpcPool) (chain : ChainConfig)
    (h : p.pools.lookup chain.chainId = none) :
    p.ensurePool chain =
      (chain.rpcs.map (fun url => { url := url, failures := 0 }),
       { p with
         pools := assocSet p.pools chain.chainId
           (chain.rpcs.map (fun url => { url := url, failures := 0 })) }) := by
  simp [RpcPool.ensurePool, h]

theorem ensurePool_settings (p : RpcPool) (chain : ChainConfig) :
    (p.ensurePool chain).2.settings = p.settings ∧
    (p.ensurePool chain).2.roundRobinIndex = p.roundRobinIndex := by
  unfold RpcPool.ensurePool
  cases p.pools.lookup chain.chainId <;> simp

/-- A member of the candidate list is a non-disabled member of the
pool. -/
theorem mem_pickCandidates (pool : List RpcHealth) (now : Nat)
    (r : RpcHealth) (h : r ∈ pickCandidates pool now) :
    r ∈ pool ∧ r.disabled = false := by
  unfold pickCandidates at h
  by_cases hav : (pool.filter (fun rpc =>
      !rpc.disabled &&
        (match rpc.cooldownUntil with
         | none => true
         | some c => decide (c ≤ now)))).length > 0
  · rw [if_pos hav] at h
    rcases List.mem_filter.mp h with ⟨hmem, hp⟩
    refine ⟨hmem, ?_⟩
    rcases Bool.and_eq_true_iff.mp hp with ⟨hd, _⟩
    simpa using hd
  · rw [if_neg hav] at h
    rcases List.mem_filter.mp h with ⟨hmem, hp⟩
    exact ⟨hmem, by simpa using hp⟩

/-- The candidate list is empty exactly when every pool member is
disabled. -/
theorem pickCandidates_eq_nil_iff (pool : List RpcHealth) (now : Nat) :
    pickCandidates pool now = [] ↔ ∀ rpc ∈ pool, rpc.disabled = true := by
  constructor
  · intro h rpc hmem
    unfold pickCandidates at h
    by_cases hav : (pool.filter (fun rpc =>
        !rpc.disabled &&
          (match rpc.cooldownUntil with
           | none => true
           | some c => decide (c ≤ now)))).length > 0
    · rw [if_pos hav] at h
      rw [h] at hav
      simp at hav
    · rw [if_neg hav] at h
      have := List.filter_eq_nil_iff.mp h rpc hmem
      simpa using this
  · intro h
    unfold pickCandidates
    have hfil : pool.filter (fun rpc => !rpc.disabled) = [] :=
      List.filter_eq_nil_iff.mpr (fun rpc hmem => by simp [h rpc hmem])
    have hav : pool.filter (fun rpc =>
        !rpc.disabled &&
          (match rpc.cooldownUntil with
           | none => true
           | some c => decide (c ≤ now))) = [] :=
      List.filter_eq_nil_iff.mpr (fun rpc hmem => by simp [h rpc hmem])
    simp [hav, hfil]

/-- pick leaves the settings alone, and its returned pool component is
the ensured one. -/
theorem pick_snd (p : RpcPool) (chain : ChainConfig) (now : Nat) :
    (p.pick chain now).2.pools = (p.ensurePool chain).2.pools ∧
    (p.pick chain now).2.settings = p.settings := by
  have hs := (ensurePool_settings p chain).1
  unfold RpcPool.pick
  cases hEP : p.ensurePool chain with
  | mk pool p1 =>
    rw [hEP] at hs
    have hs2 : p1.settings = p.settings := hs
    by_cases h0 : pool.isEmpty <;>
      by_cases h1 : (pickCandidates pool now).isEmpty <;>
      by_cases h2 : p.settings.roundRobin <;>
      simp [h0, h1, h2, hs2]

/-- Whatever pick returns is a non-disabled member of the ensured
pool. -/
theorem pick_fst_mem (p : RpcPool) (chain : ChainConfig) (now : Nat)
    (r : RpcHealth) (h : (p.pick chain now).1 = some r) :
    r ∈ (p.ensurePool chain).1 ∧ r.disabled = false := by
  unfold RpcPool.pick at h
  cases hEP : p.ensurePool chain with
  | mk pool p1 =>
    rw [hEP] at h
    show r ∈ pool ∧ r.disabled = false
    by_cases h0 : pool.isEmpty
    · simp [h0] at h
    · by_cases h1 : (pickCandidates pool now).isEmpty
      · simp [h0, h1] at h
      · by_cases h2 : p1.settings.roundRobin
        · simp only [h0, h1, h2, Bool.not_true, if_false, if_true,
            Bool.false_eq_true, ite_false] at h
          have hmem : r ∈ pickCandidates pool now :=
            List.getElem?_mem (by rw [← List.get?_eq_getElem?]; exact h)
          exact mem_pickCandidates pool now r hmem
        · simp only [h0, h1, h2, Bool.not_false, if_false, if_true,
            Bool.false_eq_true, ite_false] at h
          have hmem : r ∈ pickCandidates pool now := by
            rcases List.head?_eq_some_iff.mp h with ⟨ys, hys⟩
            rw [hys]
            exact List.mem_cons_self r ys
          exact mem_pickCandidates pool now r hmem

theorem pickCandidates_nil (now : Nat) : pickCandidates [] now = [] := by
  simp [pickCandidates]

/-- C5: pick lazily builds one health record per configured URL on the
first use of a chain and leaves existing records alone afterwards;
it returns none exactly when every endpoint of the (ensured) pool is
permanently disabled; and among the candidates — the non-disabled
endpoints whose cooldown elapsed, falling back to all non-disabled ones —
it returns the head without round-robin, and with round-robin the entry
at the per-chain rotating index modulo the candidate count, advancing
that index by one. -/
theorem rpcPool_pick_characterization (p : RpcPool) (chain : ChainConfig)
    (now : Nat) :
    (p.pools.lookup chain.chainId = none →
      (p.pick chain now).2.pools.lookup chain.chainId =
        some (chain.rpcs.map (fun url => { url := url, failures := 0 }))) ∧
    (∀ pool0, p.pools.lookup chain.chainId = some pool0 →
      (p.pick chain now).2.pools = p.pools) ∧
    ((p.pick chain now).1 = none ↔
      ∀ rpc ∈ (p.ensurePool chain).1, rpc.disabled = true) ∧
    (pickCandidates (p.ensurePool chain).1 now ≠ [] →
      (p.settings.roundRobin = false →
        (p.pick chain now).1 =
          (pickCandidates (p.ensurePool chain).1 now).head?) ∧
      (p.settings.roundRobin = true →
        (p.pick chain now).1 =
          (pickCandidates (p.ensurePool chain).1 now).get?
            (((p.roundRobinIndex.lookup chain.chainId).getD 0) %
              (pickCandidates (p.ensurePool chain).1 now).length) ∧
        (p.pick chain now).2.roundRobinIndex.lookup chain.chainId =
          some (((p.roundRobinIndex.lookup chain.chainId).getD 0) + 1))) := by
  obtain ⟨pool, p1, hEP⟩ : ∃ pool p1, p.ensurePool chain = (pool, p1) :=
    ⟨(p.ensurePool chain).1, (p.ensurePool chain).2, rfl⟩
  have hs2 : p1.settings = p.settings := by
    have h := (ensurePool_settings p chain).1
    rw [hEP] at h
    exact h
  have hrr : p1.roundRobinIndex = p.roundRobinIndex := by
    have h := (ensurePool_settings p chain).2
    rw [hEP] at h
    exact h
  have hpick : p.pick chain now =
      (if pool.isEmpty then (none, p1)
       else if (pickCandidates pool now).isEmpty then (none, p1)
       else if !p1.settings.roundRobin then
         ((pickCandidates pool now).head?, p1)
       else
         ((pickCandidates pool now).get?
            (((p1.roundRobinIndex.lookup chain.chainId).getD 0) %
              (pickCandidates pool now).length),
          { p1 with
            roundRobinIndex := assocSet p1.roundRobinIndex chain.chainId
              (((p1.roundRobinIndex.lookup chain.chainId).getD 0) + 1) })) := by
    unfold RpcPool.pick
    rw [hEP]
  have hfst : (p.ensurePool chain).1 = pool := by rw [hEP]
  refine ⟨?_, ?_, ?_, ?_⟩
  · intro hnone
    have h1 := (pick_snd p chain now).1
    rw [ensurePool_fresh p chain hnone] at h1
    simp only at h1
    rw [h1]
    exact lookup_assocSet_self p.pools chain.chainId _
  · intro pool0 hsome
    have h1 := (pick_snd p chain now).1
    rw [ensurePool_known p chain pool0 hsome] at h1
    exact h1
  · rw [hfst]
    constructor
    · intro hnone rpc hmem
      by_cases h0 : pool.isEmpty
      · rw [List.isEmpty_iff] at h0
        rw [h0] at hmem
        simp at hmem
      · by_cases h1 : (pickCandidates pool now).isEmpty
        · rw [List.isEmpty_iff] at h1
          exact (pickCandidates_eq_nil_iff pool now).mp h1 rpc hmem
        · by_cases h2 : p1.settings.roundRobin
          · rw [hpick] at hnone
            simp only [h0, h1, h2, Bool.not_true, if_false, ite_false,
              Bool.false_eq_true] at hnone
            have hlen : 0 < (pickCandidates pool now).length :=
              List.length_pos.mpr (fun hnil => h1 (by simp [hnil]))
            have hlt := Nat.mod_lt
              ((p1.roundRobinIndex.lookup chain.chainId).getD 0) hlen
            rw [List.get?_eq_getElem?] at hnone
            rw [List.getElem?_eq_none_iff] at hnone
            omega
          · rw [hpick] at hnone
            simp only [h0, h1, h2, Bool.not_false, if_false, ite_false,
              Bool.false_eq_true, if_true, ite_true] at hnone
            rw [List.head?_eq_none_iff] at hnone
            exact absurd (by simp [hnone]) h1
    · intro hall
      have hc : pickCandidates pool now = [] :=
        (pickCandidates_eq_nil_iff pool now).mpr hall
      rw [hpick]
      by_cases h0 : pool.isEmpty <;> simp [h0, hc]
  · rw [hfst]
    intro hne
    have h1 : (pickCandidates pool now).isEmpty = false := by
      simpa using hne
    have h0 : pool.isEmpty = false := by
      cases hp0 : pool.isEmpty
      · rfl
      · rw [List.isEmpty_iff] at hp0
        rw [hp0, pickCandidates_nil] at hne
        simp at hne
    constructor
    · intro hrrFalse
      rw [hpick]
      simp [h0, h1, hs2, hrrFalse]
    · intro hrrTrue
      rw [hpick]
      constructor
      · simp [h0, h1, hs2, hrrTrue, hrr]
      · simp only [h0, h1, hs2, hrrTrue, Bool.not_true, if_false, ite_false,
          Bool.false_eq_true]
        rw [hrr]
        exact lookup_assocSet_self p.roundRobinIndex chain.chainId _

/-- Witness for C5 at a concrete two-endpoint chain with round-robin
enabled and an untouched pool, with every hypothesis discharged. -/
theorem rpcPool_pick_characterization_witness :
    (((RpcPool.mk ⟨true, 100, 3⟩ [] []).pick ⟨1, "eth", ["a", "b"], none⟩ 0).2.pools.lookup 1 =
      some ((["a", "b"] : List Url).map (fun url => { url := url, failures := 0 }))) ∧
    (((RpcPool.mk ⟨true, 100, 3⟩ [] []).pick ⟨1, "eth", ["a", "b"], none⟩ 0).1 =
      (pickCandidates ((RpcPool.mk ⟨true, 100, 3⟩ [] []).ensurePool ⟨1, "eth", ["a", "b"], none⟩).1 0).get?
        ((((RpcPool.mk ⟨true, 100, 3⟩ [] []).roundRobinIndex.lookup 1).getD 0) %
          (pickCandidates ((RpcPool.mk ⟨true, 100, 3⟩ [] []).ensurePool ⟨1, "eth", ["a", "b"], none⟩).1 0).length) ∧
     ((RpcPool.mk ⟨true, 100, 3⟩ [] []).pick ⟨1, "eth", ["a", "b"], none⟩ 0).2.roundRobinIndex.lookup 1 =
      some ((((RpcPool.mk ⟨true, 100, 3⟩ [] []).roundRobinIndex.lookup 1).getD 0) + 1)) :=
  ⟨(rpcPool_pick_characterization (RpcPool.mk ⟨true, 100, 3⟩ [] [])
      ⟨1, "eth", ["a", "b"], none⟩ 0).1 rfl,
   ((rpcPool_pick_characterization (RpcPool.mk ⟨true, 100, 3⟩ [] [])
      ⟨1, "eth", ["a", "b"], none⟩ 0).2.2.2 (by decide)).2 rfl⟩

/-- Updating the first pred2-match leaves the first pred1-match either
untouched or mapped through f, when f does not change pred1-ness. -/
theorem find?_updateFirstBy_cases (l : List RpcHealth)
    (pred1 pred2 : RpcHealth → Bool) (f : RpcHealth → RpcHealth)
    (hpred : ∀ r, pred1 (f r) = pred1 r) (r : RpcHealth)
    (h : l.find? pred1 = some r) :
    (updateFirstBy l pred2 f).find? pred1 = some r ∨
    (updateFirstBy l pred2 f).find? pred1 = some (f r) := by
  induction l with
  | nil => simp at h
  | cons a tl ih =>
    rw [List.find?_cons] at h
    by_cases h2 : pred2 a
    · cases hp1 : pred1 a with
      | true =>
        rw [hp1] at h
        have hra : a = r := by simpa using h
        subst hra
        right
        rw [show updateFirstBy (a :: tl) pred2 f = f a :: tl from by
          simp [updateFirstBy, h2]]
        rw [List.find?_cons, hpred a, hp1]
      | false =>
        rw [hp1] at h
        left
        rw [show updateFirstBy (a :: tl) pred2 f = f a :: tl from by
          simp [updateFirstBy, h2]]
        rw [List.find?_cons, hpred a, hp1]
        exact h
    · have h2f : pred2 a = false := by simpa using h2
      rw [show updateFirstBy (a :: tl) pred2 f = a :: updateFirstBy tl pred2 f from by
        simp [updateFirstBy, h2f]]
      cases hp1 : pred1 a with
      | true =>
        rw [hp1] at h
        left
        rw [List.find?_cons, hp1]
        exact h
      | false =>
        rw [hp1] at h
        rw [List.find?_cons, hp1]
        exact ih h

/-- A disabled record stays present and disabled across any updateRpc
whose update function preserves urls and disabledness. -/
theorem findRpc_updateRpc_disabled (q : RpcPool) (cid2 : ChainId) (url2 : Url)
    (f : RpcHealth → RpcHealth) (hurl : ∀ r, (f r).url = r.url)
    (hdis : ∀ r, r.disabled = true → (f r).disabled = true)
    (cid : ChainId) (url : Url) (rpc0 : RpcHealth)
    (h : q.findRpc cid url = some rpc0) (hd : rpc0.disabled = true) :
    ∃ rpc2, (q.updateRpc cid2 url2 f).findRpc cid url = some rpc2 ∧
      rpc2.disabled = true := by
  by_cases hcid : cid = cid2
  · subst hcid
    unfold RpcPool.findRpc at h
    unfold RpcPool.findRpc RpcPool.updateRpc
    simp only
    rw [lookup_assocUpdate_self]
    cases hp : q.pools.lookup cid with
    | none =>
      rw [hp] at h
      simp at h
    | some pool =>
      rw [hp] at h
      simp only [Option.some_bind] at h
      simp only [Option.map_some', Option.some_bind]
      rcases find?_updateFirstBy_cases pool _ _ f
          (fun r => by simp [hurl r]) rpc0 h with h2 | h2
      · exact ⟨rpc0, h2, hd⟩
      · exact ⟨f rpc0, h2, hdis rpc0 hd⟩
  · unfold RpcPool.findRpc at h
    unfold RpcPool.findRpc RpcPool.updateRpc
    simp only
    rw [lookup_assocUpdate_ne _ _ _ _ hcid]
    exact ⟨rpc0, h, hd⟩

/-- pick does not lose existing health records. -/
theorem findRpc_pick_of_some (q : RpcPool) (chain : ChainConfig) (n : Nat)
    (cid : ChainId) (url : Url) (rpc0 : RpcHealth)
    (h : q.findRpc cid url = some rpc0) :
    ((q.pick chain n).2).findRpc cid url = some rpc0 := by
  have hpools := (pick_snd q chain n).1
  unfold RpcPool.findRpc at h ⊢
  rw [hpools]
  cases hp : q.pools.lookup chain.chainId with
  | some pool0 =>
    rw [ensurePool_known q chain pool0 hp]
    exact h
  | none =>
    rw [ensurePool_fresh q chain hp]
    simp only
    by_cases hcid : cid = chain.chainId
    · subst hcid
      rw [hp] at h
      simp at h
    · rw [lookup_assocSet_ne _ _ _ _ hcid]
      exact h

/-- A disabled record stays present and disabled across any single
public pool operation. -/
theorem disabled_preserved_step (q : RpcPool) (op : PoolOp) (cid : ChainId)
    (url : Url) (rpc0 : RpcHealth) (h : q.findRpc cid url = some rpc0)
    (hd : rpc0.disabled = true) :
    ∃ rpc2, (PoolOp.apply q op).findRpc cid url = some rpc2 ∧
      rpc2.disabled = true := by
  cases op with
  | pickOp chain n =>
    exact ⟨rpc0, findRpc_pick_of_some q chain n cid url rpc0 h, hd⟩
  | successOp cid2 url2 lat =>
    simp only [PoolOp.apply, RpcPool.reportSuccess]
    exact findRpc_updateRpc_disabled q cid2 url2
      (fun rpc =>
        { rpc with
          ewmaLatencyMs :=
            some (if rpc.ewmaLatencyMs.getD 0 ≠ 0 then
              rpc.ewmaLatencyMs.getD 0 * (1 - 1 / 5) + lat * (1 / 5)
              else lat) })
      (fun r => rfl) (fun r hr => hr) cid url rpc0 h hd
  | failureOp cid2 url2 n =>
    simp only [PoolOp.apply, RpcPool.reportFailure]
    exact findRpc_updateRpc_disabled q cid2 url2
      (fun rpc =>
        { rpc with
          failures := rpc.failures + 1
          lastFailureAt := some n
          cooldownUntil := some (n + q.cooldownMs (rpc.failures + 1))
          disabled := rpc.disabled ||
            decide (rpc.failures + 1 ≥ q.settings.maxRetriesBeforeDisable) })
      (fun r => rfl) (fun r hr => by simp [hr]) cid url rpc0 h hd

/-- A disabled record stays present and disabled across any sequence of
public pool operations. -/
theorem disabled_preserved_ops (ops : List PoolOp) :
    ∀ (q : RpcPool) (cid : ChainId) (url : Url) (rpc0 : RpcHealth),
      q.findRpc cid url = some rpc0 → rpc0.disabled = true →
      ∃ rpc2, (q.applyOps ops).findRpc cid url = some rpc2 ∧
        rpc2.disabled = true := by
  induction ops with
  | nil => exact fun q cid url rpc0 h hd => ⟨rpc0, h, hd⟩
  | cons op rest ih =>
    intro q cid url rpc0 h hd
    rcases disabled_preserved_step q op cid url rpc0 h hd with ⟨rpc1, h1, hd1⟩
    exact ih (PoolOp.apply q op) cid url rpc1 h1 hd1

/-- C6: on a known (chain, url) pair reportFailure bumps the cumulative
failure counter by exactly one and sets the cooldown to now plus
base times 2 to the min(failures, 6), a duration that never decreases
with further failures and is capped at 64 times the base;
reportSuccess never touches the counter (nor cooldown or disabledness);
reaching the disable threshold makes the endpoint disabled forever
(across any later pool operations), and pick never returns a disabled
endpoint; reporting on an unknown (chain, url) pair is a silent no-op. -/
theorem rpcPool_reportFailure_behavior (p : RpcPool) (chainId : ChainId)
    (url : Url) (now : Nat) (latencyMs : ℚ) (rpc : RpcHealth)
    (hfound : p.findRpc chainId url = some rpc) :
    ((p.reportFailure chainId url now).findRpc chainId url =
      some { rpc with
        failures := rpc.failures + 1
        lastFailureAt := some now
        cooldownUntil := some (now + p.cooldownMs (rpc.failures + 1))
        disabled := rpc.disabled ||
          decide (rpc.failures + 1 ≥ p.settings.maxRetriesBeforeDisable) }) ∧
    ((p.reportSuccess chainId url latencyMs).findRpc chainId url =
      some { rpc with
        ewmaLatencyMs :=
          some (if rpc.ewmaLatencyMs.getD 0 ≠ 0 then
            rpc.ewmaLatencyMs.getD 0 * (1 - 1 / 5) + latencyMs * (1 / 5)
            else latencyMs) }) ∧
    (∀ n, p.cooldownMs n ≤ p.cooldownMs (n + 1)) ∧
    (∀ n, p.cooldownMs n ≤ 64 * p.settings.cooldownBaseMs) ∧
    (rpc.failures + 1 ≥ p.settings.maxRetriesBeforeDisable →
      ∀ ops : List PoolOp,
        ∃ rpc2,
          ((p.reportFailure chainId url now).applyOps ops).findRpc chainId url =
            some rpc2 ∧ rpc2.disabled = true) ∧
    (∀ (q : RpcPool) (chain : ChainConfig) (now2 : Nat) (r : RpcHealth),
      (q.pick chain now2).1 = some r → r.disabled = false) ∧
    (∀ (q : RpcPool) (cid2 : ChainId) (url2 : Url) (now2 : Nat) (lat2 : ℚ),
      q.findRpc cid2 url2 = none →
      q.reportFailure cid2 url2 now2 = q ∧ q.reportSuccess cid2 url2 lat2 = q) := by
  have hfail : (p.reportFailure chainId url now).findRpc chainId url =
      some { rpc with
        failures := rpc.failures + 1
        lastFailureAt := some now
        cooldownUntil := some (now + p.cooldownMs (rpc.failures + 1))
        disabled := rpc.disabled ||
          decide (rpc.failures + 1 ≥ p.settings.maxRetriesBeforeDisable) } := by
    have h := findRpc_updateRpc p chainId url
      (fun rpc =>
        let failures := rpc.failures + 1
        { rpc with
          failures := failures
          lastFailureAt := some now
          cooldownUntil := some (now + p.cooldownMs failures)
          disabled := rpc.disabled ||
            decide (failures ≥ p.settings.maxRetriesBeforeDisable) })
      (fun r => rfl)
    unfold RpcPool.reportFailure
    rw [h, hfound]
    rfl
  refine ⟨hfail, ?_, ?_, ?_, ?_, ?_, ?_⟩
  · have h := findRpc_updateRpc p chainId url
      (fun rpc =>
        let alpha : ℚ := 1 / 5
        let prior := rpc.ewmaLatencyMs.getD 0
        { rpc with
          ewmaLatencyMs :=
            some (if prior ≠ 0 then prior * (1 - alpha) + latencyMs * alpha
                  else latencyMs) })
      (fun r => rfl)
    unfold RpcPool.reportSuccess
    rw [h, hfound]
    rfl
  · intro n
    unfold RpcPool.cooldownMs
    exact Nat.mul_le_mul (Nat.le_refl _)
      (Nat.pow_le_pow_right (by norm_num) (by omega))
  · intro n
    unfold RpcPool.cooldownMs
    have h1 : 2 ^ min n 6 ≤ 2 ^ 6 :=
      Nat.pow_le_pow_right (by norm_num) (by omega)
    have h2 := Nat.mul_le_mul (Nat.le_refl p.settings.cooldownBaseMs) h1
    simpa [Nat.mul_comm] using h2
  · intro hth ops
    refine disabled_preserved_ops ops (p.reportFailure chainId url now)
      chainId url _ hfail ?_
    simp [hth]
  · exact fun q chain now2 r h => (pick_fst_mem q chain now2 r h).2
  · intro q cid2 url2 now2 lat2 hnone
    constructor
    · exact updateRpc_unknown q cid2 url2 _ hnone
    · exact updateRpc_unknown q cid2 url2 _ hnone

/-- Witness for C6 at a concrete one-endpoint pool whose third failure
crosses the disable threshold. -/
theorem rpcPool_reportFailure_behavior_witness :
    (witnessPool.reportFailure 1 "a" 500).findRpc 1 "a" =
      some { ({ url := "a", failures := 2 } : RpcHealth) with
        failures := 2 + 1
        lastFailureAt := some 500
        cooldownUntil := some (500 + witnessPool.cooldownMs (2 + 1))
        disabled := false ||
          decide (2 + 1 ≥ witnessPool.settings.maxRetriesBeforeDisable) } :=
  (rpcPool_reportFailure_behavior witnessPool 1 "a" 500 0
    { url := "a", failures := 2 } rfl).1

/-! ### Resolver lemmas -/

theorem runRpcCandidates_chainId (env : ResolveEnv) (chain : ChainConfig) :
    ∀ (urls : List Url) (pool : RpcPool) (lastError : Option String),
      (runRpcCandidates env chain pool urls lastError).outcome.chainId =
        chain.chainId := by
  intro urls
  induction urls with
  | nil => intro pool lastError; rfl
  | cons u rest ih =>
    intro pool lastError
    unfold runRpcCandidates
    cases env.getCode chain.chainId u with
    | ok code => rfl
    | error msg => simpa using ih _ _

theorem runRpcCandidates_calls_head (env : ResolveEnv) (chain : ChainConfig)
    (pool : RpcPool) (u : Url) (rest : List Url) (lastError : Option String) :
    (chain.chainId, u) ∈
      (runRpcCandidates env chain pool (u :: rest) lastError).calls := by
  unfold runRpcCandidates
  cases env.getCode chain.chainId u with
  | ok code => simp
  | error msg => simp

/-- Zeta-reduced equation for resolveChainTask. -/
theorem resolveChainTask_eq (env : ResolveEnv) (pool : RpcPool)
    (chain : ChainConfig) :
    resolveChainTask env pool chain =
      runRpcCandidates env chain (pool.pick chain env.now).2
        (match (pool.pick chain env.now).1 with
         | some preferred =>
           preferred.url :: chain.rpcs.filter (fun u => u ≠ preferred.url)
         | none => chain.rpcs) none := rfl

/-- Zeta-reduced equation for resolveChains on a cons cell. -/
theorem resolveChains_cons (env : ResolveEnv) (pool : RpcPool)
    (chain : ChainConfig) (rest : List ChainConfig) :
    resolveChains env pool (chain :: rest) =
      ((resolveChainTask env pool chain).outcome ::
         (resolveChains env (resolveChainTask env pool chain).pool rest).1,
       (match (resolveChainTask env pool chain).info with
        | some info => [(chain.chainId, info)]
        | none => []) ++
         (resolveChains env (resolveChainTask env pool chain).pool rest).2.1,
       (resolveChains env (resolveChainTask env pool chain).pool rest).2.2.1,
       (resolveChainTask env pool chain).calls ++
         (resolveChains env (resolveChainTask env pool chain).pool rest).2.2.2) :=
  rfl

theorem resolveChainTask_calls (env : ResolveEnv) (pool : RpcPool)
    (chain : ChainConfig) (hne : chain.rpcs ≠ []) :
    ∃ u, (chain.chainId, u) ∈ (resolveChainTask env pool chain).calls := by
  rw [resolveChainTask_eq]
  cases hpick : ((pool.pick chain env.now)).1 with
  | some preferred =>
    exact ⟨preferred.url,
      runRpcCandidates_calls_head env chain _ preferred.url _ none⟩
  | none =>
    cases hr : chain.rpcs with
    | nil => exact absurd hr hne
    | cons u rest =>
      exact ⟨u, runRpcCandidates_calls_head env chain _ u rest none⟩

theorem resolveChainTask_chainId (env : ResolveEnv) (pool : RpcPool)
    (chain : ChainConfig) :
    (resolveChainTask env pool chain).outcome.chainId = chain.chainId := by
  rw [resolveChainTask_eq]
  cases (pool.pick chain env.now).1 with
  | some preferred => exact runRpcCandidates_chainId env chain _ _ _
  | none => exact runRpcCandidates_chainId env chain _ _ _

theorem resolveChains_outcome_ids (env : ResolveEnv) :
    ∀ (chains : List ChainConfig) (pool : RpcPool),
      (resolveChains env pool chains).1.map (fun o => o.chainId) =
        chains.map (fun c => c.chainId) := by
  intro chains
  induction chains with
  | nil => intro pool; rfl
  | cons chain rest ih =>
    intro pool
    rw [resolveChains_cons]
    simp only [List.map_cons]
    rw [resolveChainTask_chainId env pool chain, ih]

theorem resolveChains_calls_cover (env : ResolveEnv) :
    ∀ (chains : List ChainConfig) (pool : RpcPool) (chain : ChainConfig),
      chain ∈ chains → chain.rpcs ≠ [] →
      ∃ u, (chain.chainId, u) ∈ (resolveChains env pool chains).2.2.2 := by
  intro chains
  induction chains with
  | nil => intro pool chain hmem; simp at hmem
  | cons head rest ih =>
    intro pool chain hmem hne
    rcases List.mem_cons.mp hmem with heq | htail
    · subst heq
      rcases resolveChainTask_calls env pool chain hne with ⟨u, hu⟩
      exact ⟨u, by
        rw [resolveChains_cons]
        exact List.mem_append_left _ hu⟩
    · rcases ih (resolveChainTask env pool head).pool chain htail hne with ⟨u, hu⟩
      exact ⟨u, by
        rw [resolveChains_cons]
        exact List.mem_append_right _ hu⟩

/-- filter by a predicate and by its negation partition a list, up to
permutation. -/
theorem filter_partition_perm {α : Type} (pr : α → Bool) (l : List α) :
    List.Perm (l.filter pr ++ l.filter (fun a => !pr a)) l := by
  induction l with
  | nil => simp
  | cons a tl ih =>
    cases h : pr a
    · simp only [List.filter_cons, h, Bool.not_false, if_false, ite_true,
        Bool.false_eq_true, cond_false, cond_true]
      exact (List.perm_middle).trans (List.Perm.cons a ih)
    · simp only [List.filter_cons, h, Bool.not_true, if_true, ite_false,
        Bool.false_eq_true, cond_false, cond_true]
      exact List.Perm.cons a ih

/-- Zeta-reduced equation for resolve. -/
theorem resolve_eq (env : ResolveEnv) (cache : Option AddressResolution)
    (chains : List ChainConfig) (pool : RpcPool) (address : Address)
    (scanMode : String) :
    AddressResolver.resolve env cache chains pool address scanMode =
      (match cache with
       | some cached =>
         if shouldRefresh cached (chains.map (fun chain => chain.chainId)) then
           resolveFresh env address chains pool scanMode
         else ⟨cached, pool, [], true⟩
       | none => resolveFresh env address chains pool scanMode) := rfl

theorem resolveFresh_fromCache (env : ResolveEnv) (address : Address)
    (chains : List ChainConfig) (pool : RpcPool) (scanMode : String) :
    (resolveFresh env address chains pool scanMode).fromCache = false := rfl

theorem resolveFresh_calls (env : ResolveEnv) (address : Address)
    (chains : List ChainConfig) (pool : RpcPool) (scanMode : String) :
    (resolveFresh env address chains pool scanMode).calls =
      (resolveChains env pool chains).2.2.2 := rfl

/-- Zeta-reduced equation for the scan summary resolveFresh builds. -/
theorem resolveFresh_scan (env : ResolveEnv) (address : Address)
    (chains : List ChainConfig) (pool : RpcPool) (scanMode : String) :
    (resolveFresh env address chains pool scanMode).resolution.scan =
      { mode := scanMode
        chainsAttempted := chains.map (fun chain => chain.chainId)
        chainsSucceeded :=
          ((resolveChains env pool chains).1.filter
            (fun r => !reasonTruthy r.reason)).map (fun r => r.chainId)
        chainsFailed :=
          ((resolveChains env pool chains).1.filter
            (fun r => reasonTruthy r.reason)).map
            (fun r => ChainFailure.mk r.chainId (r.reason.getD "unknown error")) } :=
  rfl

/-- C1: resolve returns the cached resolution as-is, with no endpoint
call issued, exactly when the cache holds a resolution that is not
stale; a cached resolution is stale exactly when it recorded a failed
chain or some configured chain id is missing from its per-chain map; and
on the fresh path resolve re-attempts every configured chain (its scan
covers the full configured id list and at least one endpoint call is
issued for every chain that has endpoints). -/
theorem resolve_cache_staleness (env : ResolveEnv)
    (cache : Option AddressResolution) (chains : List ChainConfig)
    (pool : RpcPool) (address : Address) (scanMode : String) :
    ((AddressResolver.resolve env cache chains pool address scanMode).fromCache =
        true ↔
      ∃ c, cache = some c ∧
        shouldRefresh c (chains.map (fun ch => ch.chainId)) = false) ∧
    (∀ c, cache = some c →
      shouldRefresh c (chains.map (fun ch => ch.chainId)) = false →
      AddressResolver.resolve env cache chains pool address scanMode =
        ⟨c, pool, [], true⟩) ∧
    (∀ (r : AddressResolution) (ids : List ChainId),
      shouldRefresh r ids = true ↔
        (r.scan.chainsFailed ≠ [] ∨ ∃ id ∈ ids, r.perChain.lookup id = none)) ∧
    ((AddressResolver.resolve env cache chains pool address scanMode).fromCache =
        false →
      (AddressResolver.resolve env cache chains pool address
          scanMode).resolution.scan.chainsAttempted =
        chains.map (fun ch => ch.chainId) ∧
      ∀ chain ∈ chains, chain.rpcs ≠ [] →
        ∃ u, (chain.chainId, u) ∈
          (AddressResolver.resolve env cache chains pool address scanMode).calls) := by
  refine ⟨?_, ?_, ?_, ?_⟩
  · rw [resolve_eq]
    cases cache with
    | none => simp [resolveFresh_fromCache]
    | some c =>
      by_cases hs : shouldRefresh c (chains.map (fun ch => ch.chainId))
      · simp [hs, resolveFresh_fromCache]
      · simp only [Bool.not_eq_true] at hs
        simp [hs]
  · intro c hc hfresh
    rw [resolve_eq, hc]
    simp [hfresh]
  · intro r ids
    unfold shouldRefresh
    simp [List.length_pos, Option.isNone_iff_eq_none]
  · intro hnc
    have hR : AddressResolver.resolve env cache chains pool address scanMode =
        resolveFresh env address chains pool scanMode := by
      rw [resolve_eq] at hnc ⊢
      cases cache with
      | none => rfl
      | some c =>
        by_cases hs : shouldRefresh c (chains.map (fun ch => ch.chainId))
        · simp [hs]
        · simp [hs] at hnc
    rw [hR]
    constructor
    · rw [resolveFresh_scan]
    · intro chain hmem hne
      rw [resolveFresh_calls]
      exact resolveChains_calls_cover env chains pool chain hmem hne

/-- Witness for C1: a fresh cached resolution is returned unchanged with
an empty call trace. -/
theorem resolve_cache_staleness_witness :
    AddressResolver.resolve witnessEnv (some witnessCachedResolution)
        [⟨1, "eth", ["a"], none⟩] (RpcPool.mk ⟨false, 100, 3⟩ [] []) "0xa" "m" =
      ⟨witnessCachedResolution, RpcPool.mk ⟨false, 100, 3⟩ [] [], [], true⟩ :=
  (resolve_cache_staleness witnessEnv (some witnessCachedResolution)
      [⟨1, "eth", ["a"], none⟩] (RpcPool.mk ⟨false, 100, 3⟩ [] []) "0xa" "m").2.1
    witnessCachedResolution rfl (by decide)

/-- C4: a freshly produced resolution attempts exactly the configured
chain ids in configuration order; succeeded and failed ids together are
a permutation of the attempted ids; under a duplicate-free configuration
every attempted id lands in exactly one of the two lists; and every
failed entry carries a nonempty reason string. -/
theorem resolve_scan_partition (env : ResolveEnv)
    (cache : Option AddressResolution) (chains : List ChainConfig)
    (pool : RpcPool) (address : Address) (scanMode : String)
    (hnc : (AddressResolver.resolve env cache chains pool address
      scanMode).fromCache = false) :
    (AddressResolver.resolve env cache chains pool address
        scanMode).resolution.scan.chainsAttempted =
      chains.map (fun c => c.chainId) ∧
    List.Perm
      ((AddressResolver.resolve env cache chains pool address
          scanMode).resolution.scan.chainsSucceeded ++
        ((AddressResolver.resolve env cache chains pool address
          scanMode).resolution.scan.chainsFailed.map (fun f => f.chainId)))
      (chains.map (fun c => c.chainId)) ∧
    ((chains.map (fun c => c.chainId)).Nodup →
      ∀ id ∈ chains.map (fun c => c.chainId),
        (id ∈ (AddressResolver.resolve env cache chains pool address
            scanMode).resolution.scan.chainsSucceeded ∧
          id ∉ (AddressResolver.resolve env cache chains pool address
            scanMode).resolution.scan.chainsFailed.map (fun f => f.chainId)) ∨
        (id ∉ (AddressResolver.resolve env cache chains pool address
            scanMode).resolution.scan.chainsSucceeded ∧
          id ∈ (AddressResolver.resolve env cache chains pool address
            scanMode).resolution.scan.chainsFailed.map (fun f => f.chainId))) ∧
    (∀ f ∈ (AddressResolver.resolve env cache chains pool address
        scanMode).resolution.scan.chainsFailed, f.reason ≠ "") := by
  have hR : AddressResolver.resolve env cache chains pool address scanMode =
      resolveFresh env address chains pool scanMode := by
    rw [resolve_eq] at hnc ⊢
    cases cache with
    | none => rfl
    | some c =>
      by_cases hs : shouldRefresh c (chains.map (fun ch => ch.chainId))
      · simp [hs]
      · simp [hs] at hnc
  rw [hR, resolveFresh_scan]
  have hids := resolveChains_outcome_ids env chains pool
  have hfailmap :
      (((resolveChains env pool chains).1.filter
        (fun r => reasonTruthy r.reason)).map
        (fun r => ChainFailure.mk r.chainId (r.reason.getD "unknown error"))).map
        (fun f => f.chainId) =
      ((resolveChains env pool chains).1.filter
        (fun r => reasonTruthy r.reason)).map (fun r => r.chainId) := by
    rw [List.map_map]
    rfl
  have hperm0 :
      List.Perm
        ((resolveChains env pool chains).1.filter
            (fun r => !reasonTruthy r.reason) ++
          (resolveChains env pool chains).1.filter
            (fun r => reasonTruthy r.reason))
        (resolveChains env pool chains).1 := by
    have h := filter_partition_perm (fun r => !reasonTruthy r.reason)
      (resolveChains env pool chains).1
    simpa [Bool.not_not] using h
  have hperm :
      List.Perm
        ((((resolveChains env pool chains).1.filter
            (fun r => !reasonTruthy r.reason)).map (fun r => r.chainId)) ++
          (((resolveChains env pool chains).1.filter
            (fun r => reasonTruthy r.reason)).map
            (fun r => ChainFailure.mk r.chainId
              (r.reason.getD "unknown error"))).map (fun f => f.chainId))
        (chains.map (fun c => c.chainId)) := by
    rw [hfailmap, ← List.map_append]
    rw [← hids]
    exact List.Perm.map _ hperm0
  refine ⟨rfl, hperm, ?_, ?_⟩
  · intro hnd id hidmem
    have hmem : id ∈
        (((resolveChains env pool chains).1.filter
          (fun r => !reasonTruthy r.reason)).map (fun r => r.chainId)) ++
          (((resolveChains env pool chains).1.filter
            (fun r => reasonTruthy r.reason)).map
            (fun r => ChainFailure.mk r.chainId
              (r.reason.getD "unknown error"))).map (fun f => f.chainId) :=
      hperm.mem_iff.mpr hidmem
    have hnodup := (hperm.nodup_iff).mpr hnd
    have hdisj := (List.nodup_append.mp hnodup).2.2
    rcases List.mem_append.mp hmem with hIn | hIn
    · exact Or.inl ⟨hIn, fun hIn2 => hdisj hIn hIn2⟩
    · refine Or.inr ⟨fun hIn2 => hdisj hIn2 hIn, hIn⟩
  · intro f hf
    rcases List.mem_map.mp hf with ⟨r, hrmem, heq⟩
    have htr := (List.mem_filter.mp hrmem).2
    cases hres : r.reason with
    | none =>
      rw [hres] at htr
      simp [reasonTruthy] at htr
    | some s =>
      rw [hres] at htr
      subst heq
      show (ChainFailure.mk r.chainId (r.reason.getD "unknown error")).reason ≠ ""
      rw [show (ChainFailure.mk r.chainId
        (r.reason.getD "unknown error")).reason =
          r.reason.getD "unknown error" from rfl]
      rw [hres]
      intro hcontra
      rw [show (some s).getD "unknown error" = s from rfl] at hcontra
      rw [hcontra] at htr
      exact absurd htr (by decide)

/-- Witness for C4 at a concrete single-chain fresh resolve. -/
theorem resolve_scan_partition_witness :
    (AddressResolver.resolve witnessEnv none [⟨1, "eth", ["a"], none⟩]
        (RpcPool.mk ⟨false, 100, 3⟩ [] []) "0xa"
        "m").resolution.scan.chainsAttempted =
      ([⟨1, "eth", ["a"], none⟩] : List ChainConfig).map (fun c => c.chainId) ∧
    ((1 ∈ (AddressResolver.resolve witnessEnv none [⟨1, "eth", ["a"], none⟩]
        (RpcPool.mk ⟨false, 100, 3⟩ [] []) "0xa"
        "m").resolution.scan.chainsSucceeded ∧
      1 ∉ (AddressResolver.resolve witnessEnv none [⟨1, "eth", ["a"], none⟩]
        (RpcPool.mk ⟨false, 100, 3⟩ [] []) "0xa"
        "m").resolution.scan.chainsFailed.map (fun f => f.chainId)) ∨
     (1 ∉ (AddressResolver.resolve witnessEnv none [⟨1, "eth", ["a"], none⟩]
        (RpcPool.mk ⟨false, 100, 3⟩ [] []) "0xa"
        "m").resolution.scan.chainsSucceeded ∧
      1 ∈ (AddressResolver.resolve witnessEnv none [⟨1, "eth", ["a"], none⟩]
        (RpcPool.mk ⟨false, 100, 3⟩ [] []) "0xa"
        "m").resolution.scan.chainsFailed.map (fun f => f.chainId))) :=
  ⟨(resolve_scan_partition witnessEnv none [⟨1, "eth", ["a"], none⟩]
      (RpcPool.mk ⟨false, 100, 3⟩ [] []) "0xa" "m" rfl).1,
   (resolve_scan_partition witnessEnv none [⟨1, "eth", ["a"], none⟩]
      (RpcPool.mk ⟨false, 100, 3⟩ [] []) "0xa" "m" rfl).2.2.1 (by decide) 1
     (by decide)⟩

end Lighthouse
